import Mathlib

/-!
Verification of the core of the turing-doodle repository: the discrete-event
animation scheduler (turing.anim in the unnamed animation module) and the
simulator / program / tape data model (src/simulator.js, src/program.js and
the Tape part of the unnamed module).

The development contains two shallow embeddings, both translated directly
from the JavaScript source:

1. AnimSt: the generic animation scheduler (queue of delayed callbacks,
   virtual tick clock, adaptive frame-rate throttle).  Callbacks are
   defunctionalized into the small inductive type CB, whose constructors
   cover exactly the re-entrant behaviours the claims are about: doing
   nothing, scheduling another callback, and cancelling an event by id.
   An instrumentation field named fired records, in order, the event ids
   whose callbacks the per-tick drain has invoked; the JavaScript has no
   such field, and nothing else reads it.

2. World: the simulator (turing.Simulator) together with the scheduler
   queue it schedules its step callback into.  Every queued event in this
   model is a simulator step event, which is exactly the defunctionalized
   form of the step closures of simulator.js.  The module-global frame
   period is at its initial value of 1000/60 ms in this model, so the
   duration-to-ticks conversion of turing.anim.getNumTicks_ becomes the
   natural-number ceiling of 3*d/50; none of the simulator claims depend
   on the throttled rate.  The doodle wall-clock throttle itself is
   modelled (with rational arithmetic for the JavaScript floats, which
   agree with the rationals on every value these computations reach) in
   the AnimSt embedding.  The done callback of Simulator.run is modelled
   as a counter of invocations; it performs no other effect.

JavaScript objects that the core mutates through references (the Program
and the Tape) are stored in the World directly, and the simulator fields
program_ and tape_ become the booleans progAttached / tapeAttached (null
reference versus reference to the single heap object).  The sentinel
stepTimerId_ = -1 becomes none : Option Nat.
-/

namespace TuringDoodle

/-! ## Speed settings (turing.SpeedSetting, turing.SPEED_CONFIG) -/

/-- Speed settings the simulator can run at (turing.SpeedSetting). -/
inductive SpeedSetting where
  | slow
  | tutorial
  | normal
  | fast
  | ludicrous
deriving DecidableEq

/-- Configuration for a simulator speed setting (turing.Speeds). -/
structure Speeds where
  stepTime : Nat
  tapeTime : Nat
  emptyStepTime : Nat
  branchTime : Nat
deriving DecidableEq

/-- The definitions for speed settings (turing.SPEED_CONFIG). -/
def SPEED_CONFIG : SpeedSetting → Speeds
  | .slow => { stepTime := 750, tapeTime := 600, emptyStepTime := 400, branchTime := 850 }
  | .tutorial => { stepTime := 650, tapeTime := 500, emptyStepTime := 200, branchTime := 750 }
  | .normal => { stepTime := 450, tapeTime := 300, emptyStepTime := 200, branchTime := 550 }
  | .fast => { stepTime := 250, tapeTime := 200, emptyStepTime := 100, branchTime := 250 }
  | .ludicrous => { stepTime := 100, tapeTime := 50, emptyStepTime := 100, branchTime := 100 }

/-- How many times an operation can repeat before it is somewhat boring
(turing.SOMEWHAT_BORING_REPEAT_COUNT). -/
def SOMEWHAT_BORING_REPEAT_COUNT : Nat := 4

/-- How many times an operation can repeat before it is very boring
(turing.VERY_BORING_REPEAT_COUNT). -/
def VERY_BORING_REPEAT_COUNT : Nat := 6

/-! ## Program model (turing.Program in src/program.js)

The rendering state of the Program object (divs, highlight colors,
hidden and interactive flags) is external to the core and is omitted; the
methods dimCurOp and lightCurOp only touch that rendering state.  The
module globals turing.numOpsPerTrack_ and turing.numTracks_ are stored as
fields of the record, constant across all Program methods. -/

/-- The logical state of turing.Program: tracks of operation strings plus
current and next position bookkeeping.  The field tracks models the ops
arrays of the Track objects (Track.prototype.getOp reads ops at an index,
yielding the undefined value, modelled as the empty string, out of
bounds). -/
structure Program where
  numTracks : Nat
  numOpsPerTrack : Nat
  numActiveTracks : Nat
  tracks : List (List String)
  curTrack : Nat
  curTrackPos : Nat
  nextTrack : Nat
  nextTrackPos : Nat
  nextPosIsEnd : Bool
deriving DecidableEq

namespace Program

/-- A fresh turing.Program in normal mode (constructor defaults with the
normal-mode globals: 2 tracks of 8 ops). -/
def init : Program :=
  { numTracks := 2
    numOpsPerTrack := 8
    numActiveTracks := 0
    tracks := [[], []]
    curTrack := 0
    curTrackPos := 0
    nextTrack := 0
    nextTrackPos := 0
    nextPosIsEnd := true }

/-- turing.Program.prototype.change: replaces the operation tables and
resets positions.  Track.prototype.setOps copies the given ops array; a
missing track gets the empty array. -/
def change (p : Program) (trackOps : List (List String)) : Program :=
  { p with
    curTrack := 0
    curTrackPos := 0
    nextTrack := 0
    nextTrackPos := 0
    nextPosIsEnd := false
    numActiveTracks := trackOps.length
    tracks := (List.range p.numTracks).map (fun i => trackOps.getD i []) }

/-- turing.Program.prototype.setNextPos: sets the track and position for
the next operation, or only the end flag when the new position is not a
valid program position.  The JavaScript arguments are numbers that can be
negative (branch offsets), hence integer arguments. -/
def setNextPos (p : Program) (track pos : Int) : Program :=
  if 0 ≤ track ∧ track < p.numActiveTracks ∧ 0 ≤ pos ∧ pos < p.numOpsPerTrack then
    { p with nextTrack := track.toNat, nextTrackPos := pos.toNat, nextPosIsEnd := false }
  else
    { p with nextPosIsEnd := true }

/-- turing.Program.prototype.goToNextPos: sets the current position to the
next position (the dim and highlight calls only touch rendering state). -/
def goToNextPos (p : Program) : Program :=
  if p.nextPosIsEnd then p
  else { p with curTrack := p.nextTrack, curTrackPos := p.nextTrackPos }

/-- turing.Program.prototype.getCurOp: the operation at the current
position; reading past the end of an ops array gives the undefined value,
which the simulator treats exactly like the empty string. -/
def getCurOp (p : Program) : String :=
  (p.tracks.getD p.curTrack []).getD p.curTrackPos ""

end Program

/-! ## Tape model (turing.Tape in the unnamed module)

Only the logical contract of the tape is part of the core: the sparse
contents map, the head position and the maximum written position.  The
animation parameters of print / scanLeft / scanRight and all div state are
rendering concerns and are dropped; the logical mutation they perform is
kept exactly. -/

/-- The logical state of turing.Tape.  Unwritten cells hold the empty
string, as in the JavaScript sparse object. -/
structure Tape where
  contents : Int → String
  pos : Int
  maxWrittenPosition : Int

namespace Tape

/-- A fresh turing.Tape (constructor defaults). -/
def init : Tape :=
  { contents := fun _ => "", pos := 0, maxWrittenPosition := 0 }

/-- turing.Tape.prototype.print: writes the symbol at the head and updates
the maximum written position. -/
def print (t : Tape) (symbol : String) : Tape :=
  { t with
    contents := fun i => if i = t.pos then symbol else t.contents i
    maxWrittenPosition := max t.pos t.maxWrittenPosition }

/-- turing.Tape.prototype.scanLeft: moves the head one square left. -/
def scanLeft (t : Tape) : Tape :=
  { t with pos := t.pos - 1 }

/-- turing.Tape.prototype.scanRight: moves the head one square right. -/
def scanRight (t : Tape) : Tape :=
  { t with pos := t.pos + 1 }

/-- turing.Tape.prototype.getCurSymbol: the symbol under the head, with
the blank symbol for an unwritten or erased cell (the JavaScript is
contents[pos] or the blank default, where both undefined and the empty
string fall through to the default). -/
def getCurSymbol (t : Tape) : String :=
  if t.contents t.pos = "" then "_" else t.contents t.pos

end Tape

/-! ## Operation-string helpers used by Simulator.prototype.step -/

/-- Strips the leading editable marker, as in the step body: if op is
non-empty and its first character is the marker star, drop it. -/
def stripStar (op : String) : String :=
  if op ≠ "" ∧ op.front = '*' then op.drop 1 else op

/-- The one-character string op.charAt(1): the second character of the
string, or the empty string when the string is shorter. -/
def charAt1 (op : String) : String :=
  (op.drop 1).take 1

/-- parseInt(op.charAt(1), 10) restricted to a single character: the digit
value of the second character, or none for the JavaScript NaN. -/
def digitAt1 (op : String) : Option Nat :=
  match op.toList with
  | _ :: c :: _ => if '0' ≤ c ∧ c ≤ '9' then some (c.toNat - '0'.toNat) else none
  | _ => none

/-- The unanchored regular-expression test for a B followed by a digit
from 2 to 9 anywhere in the string, scanning character pairs. -/
def hasB29 : List Char → Bool
  | 'B' :: c :: rest => ('2' ≤ c && c ≤ '9') || hasB29 (c :: rest)
  | _ :: rest => hasB29 rest
  | [] => false

/-- The anchored regular-expression test for a leading character: true
when the string starts with that character. -/
def headIs (c : Char) (s : String) : Bool :=
  match s.toList with
  | a :: _ => a = c
  | [] => false

/-- Step duration selection at the end of Simulator.prototype.step: the
empty op takes emptyStepTime, an op starting with U, D or B takes
branchTime, anything else takes stepTime. -/
def stepDuration (op : String) (sp : Speeds) : Nat :=
  if op = "" then sp.emptyStepTime
  else if headIs 'U' op || headIs 'D' op || headIs 'B' op then sp.branchTime
  else sp.stepTime

/-- The operation dispatch chain of Simulator.prototype.step, producing
the updated program and tape together with the implicitStep flag.  The
branch order is exactly the else-if chain of the source; the B branch with
an unparsable second character reproduces the JavaScript NaN flowing into
setNextPos, where every bounds comparison is false, so only the end flag
is set. -/
def dispatch (p : Program) (t : Tape) (op : String) : Program × Tape × Bool :=
  if op = "0" ∨ op = "1" ∨ op = "_" then
    (p, t.print op, true)
  else if op = "L" then
    (p, t.scanLeft, true)
  else if op = "R" then
    (p, t.scanRight, true)
  else if hasB29 op.toList then
    (match digitAt1 op with
     | some d => p.setNextPos p.curTrack ((p.curTrackPos : Int) - d)
     | none => { p with nextPosIsEnd := true }, t, false)
  else if headIs 'D' op then
    if op.length = 1 ∨ t.getCurSymbol = charAt1 op then
      (p.setNextPos ((p.curTrack : Int) + 1) p.curTrackPos, t, false)
    else (p, t, true)
  else if headIs 'U' op then
    if op.length = 1 ∨ t.getCurSymbol = charAt1 op then
      (p.setNextPos ((p.curTrack : Int) - 1) p.curTrackPos, t, false)
    else (p, t, true)
  else
    (p, t, true)

/-! ## Combined simulator plus scheduler model (World)

The queue holds the events scheduled through turing.anim.delay by the
simulator; each one carries the step closure, so an event is just its due
tick and its event id.  Durations are converted to ticks at the initial
frame period of 1000/60 ms: ceil(d / (50/3)) = ceil(3*d/50). -/

/-- turing.anim.getNumTicks_ at the initial frame period of 1000/60 ms:
the number of whole ticks covering d milliseconds. -/
def msToTicks (d : Nat) : Nat :=
  (3 * d + 49) / 50

/-- A pending scheduler event whose callback is the simulator step
closure. -/
structure StepEv where
  ticks : Nat
  eventId : Nat
deriving DecidableEq

/-- turing.anim.cancel on a queue: remove the first event with the given
id, leaving the queue unchanged when no event matches. -/
def cancelQW (id : Nat) : List StepEv → List StepEv
  | [] => []
  | e :: rest => if e.eventId = id then rest else e :: cancelQW id rest

/-- The comparator of the queue sort in turing.anim.loop_: ascending due
tick, ties broken by ascending event id. -/
def seLE (a b : StepEv) : Bool :=
  a.ticks < b.ticks || (a.ticks = b.ticks && a.eventId ≤ b.eventId)

/-- Ordered insertion for the queue sort. -/
def insertSE (e : StepEv) : List StepEv → List StepEv
  | [] => [e]
  | x :: xs => if seLE e x then e :: x :: xs else x :: insertSE e xs

/-- The queue sort of turing.anim.loop_.  With the comparator above and
the distinct event ids the scheduler allocates, the sorted order is unique,
so insertion sort agrees with the JavaScript engine sort. -/
def sortSE : List StepEv → List StepEv
  | [] => []
  | e :: rest => insertSE e (sortSE rest)

/-- The combined state: the scheduler queue of step events, the simulator
fields of the turing.Simulator constructor, and the Program and Tape heap
objects the simulator holds references to.  doneCount instruments how
often the done callback has been invoked. -/
structure World where
  queue : List StepEv
  queueDirty : Bool
  curTick : Nat
  nextEventId : Nat
  progAttached : Bool
  tapeAttached : Bool
  stepTimerId : Option Nat
  doneRegistered : Bool
  doneCount : Nat
  stepCount : Nat
  stepLimit : Nat
  runCount : Nat × Nat → Nat
  speeds : Speeds
  paused : Bool
  prog : Program
  tape : Tape

namespace World

/-- A fresh simulator (constructor defaults) over a given program and
tape, after setStepLimit(limit), attached to a freshly reset scheduler. -/
def mkWorld (p : Program) (t : Tape) (limit : Nat) : World :=
  { queue := []
    queueDirty := false
    curTick := 0
    nextEventId := 1
    progAttached := false
    tapeAttached := false
    stepTimerId := none
    doneRegistered := false
    doneCount := 0
    stepCount := 0
    stepLimit := limit
    runCount := fun _ => 0
    speeds := SPEED_CONFIG .normal
    paused := false
    prog := p
    tape := t }

/-- turing.anim.delay of the step closure: append the event due after the
given duration in milliseconds and store its id as the pending step timer
(the common tail of run, resumeIfPaused and step). -/
def schedStep (d : Nat) (w : World) : World :=
  { w with
    queue := w.queue ++ [{ ticks := w.curTick + msToTicks d, eventId := w.nextEventId }]
    queueDirty := true
    stepTimerId := some w.nextEventId
    nextEventId := w.nextEventId + 1 }

/-- turing.Simulator.prototype.stop: cancel the pending step if any, clear
the program and tape references, and invoke and clear the done callback if
one is registered. -/
def stopSim (w : World) : World :=
  { w with
    queue := match w.stepTimerId with
      | some id => cancelQW id w.queue
      | none => w.queue
    stepTimerId := none
    progAttached := false
    tapeAttached := false
    doneCount := w.doneCount + (if w.doneRegistered then 1 else 0)
    doneRegistered := false }

/-- turing.Simulator.prototype.run: a no-op when a step timer is pending;
otherwise reset the program position, pick the speed profile, reset the
step and run counters, schedule the first step with duration 0, and store
the program, tape and done-callback references.  Note that the paused flag
is not touched. -/
def runSim (sp : SpeedSetting) (wantDone : Bool) (w : World) : World :=
  if w.stepTimerId ≠ none then w
  else
    schedStep 0
      { w with
        prog := w.prog.setNextPos 0 0
        speeds := SPEED_CONFIG sp
        stepCount := 0
        runCount := fun _ => 0
        progAttached := true
        tapeAttached := true
        doneRegistered := wantDone }

/-- turing.Simulator.prototype.pause: cancel the pending step and mark the
simulation paused. -/
def pauseSim (w : World) : World :=
  let q := match w.stepTimerId with
    | some id => cancelQW id w.queue
    | none => w.queue
  { w with queue := q, stepTimerId := none, paused := true }

/-- turing.Simulator.prototype.resumeIfPaused: when paused, schedule a
step with duration 0; clear the paused flag unconditionally. -/
def resumeSim (w : World) : World :=
  let w1 := if w.paused then schedStep 0 w else w
  { w1 with paused := false }

/-- turing.Simulator.prototype.speedUpBoringLoops_: bump the run count of
the current position and force ludicrous or fast speed when the previous
count exceeds the very or somewhat boring thresholds.  The JavaScript keys
the count object by the string track comma position, which is injective on
pairs of naturals. -/
def speedUpBoringLoops (w : World) : World :=
  let pc := (w.prog.curTrack, w.prog.curTrackPos)
  let count := w.runCount pc
  { w with
    runCount := fun q => if q = pc then count + 1 else w.runCount q
    speeds :=
      if VERY_BORING_REPEAT_COUNT < count then SPEED_CONFIG .ludicrous
      else if SOMEWHAT_BORING_REPEAT_COUNT < count then SPEED_CONFIG .fast
      else w.speeds }

/-- The body of Simulator.prototype.step after the early-return guard and
the halt check: run the boring-loop accelerator when a step limit is set,
count the step, strip the editable marker, dispatch the operation, apply
the implicit advance, and reschedule the step closure with the duration
selected from the speed profile. -/
def stepExec (w1 : World) : World :=
  let w2 := if 0 < w1.stepLimit then speedUpBoringLoops w1 else w1
  let w3 := { w2 with stepCount := w2.stepCount + 1 }
  let op := stripStar w3.prog.getCurOp
  let pt := dispatch w3.prog w3.tape op
  let p2 := if pt.2.2 then pt.1.setNextPos (pt.1.curTrack : Int) ((pt.1.curTrackPos : Int) + 1)
            else pt.1
  schedStep (stepDuration op w3.speeds) { w3 with prog := p2, tape := pt.2.1 }

/-- The halt check of Simulator.prototype.step, applied after the step
timer is cleared and the program has advanced: when the next position is
the end sentinel, or a step limit is set and exceeded, the simulator stops
(the dim call touches only rendering state); otherwise the step body
executes. -/
def stepAdvance (w1 : World) : World :=
  if w1.prog.nextPosIsEnd = true ∨ (0 < w1.stepLimit ∧ w1.stepLimit < w1.stepCount) then
    stopSim w1
  else
    stepExec w1

/-- turing.Simulator.prototype.step, the callback the scheduler fires: the
guard returns early when no tape or program is attached or no step timer
is recorded; otherwise the step timer is cleared, the program advances to
the next position, and the halt check runs. -/
def stepCb (w : World) : World :=
  if w.tapeAttached = false ∨ w.progAttached = false ∨ w.stepTimerId = none then w
  else stepAdvance { w with stepTimerId := none, prog := w.prog.goToNextPos }

/-- The due-event drain of turing.anim.loop_: walk the live queue by
index, invoking each due callback (every queued callback is the simulator
step closure) and counting the fired frames; stop at the first event that
is not yet due or past the end of the array.  The fuel argument caps the
walk; it is always sufficient in the executions this development reasons
about, because a fired step reschedules itself at least one tick in the
future, so appended events are never due in the same drain. -/
def drainW : Nat → Nat → Nat → World → World × Nat
  | 0, _, n, w => (w, n)
  | fuel + 1, i, n, w =>
    match w.queue.get? i with
    | none => (w, n)
    | some fr =>
      if fr.ticks ≤ w.curTick then drainW fuel (i + 1) (n + 1) (stepCb w)
      else (w, n)

/-- One iteration of the animation loop of turing.anim.loop_ for the
combined model (the scheduler is started): sort the queue when dirty,
drain the due events from the live queue, splice off the fired count, and
advance the tick. -/
def tickW (w : World) : World :=
  let ws := if w.queueDirty then { w with queue := sortSE w.queue, queueDirty := false } else w
  let r := drainW (ws.queue.length + 1) 0 0 ws
  { r.1 with queue := r.1.queue.drop r.2, curTick := r.1.curTick + 1 }

end World

/-- The operations an external caller can perform on the combined model:
the four simulator entry points the claims quantify over, plus one
animation-loop tick. -/
inductive Act where
  | runA (sp : SpeedSetting) (wantDone : Bool)
  | pauseA
  | resumeA
  | stopA
  | tickA
deriving DecidableEq

/-- Apply one action to the world. -/
def applyAct (a : Act) (w : World) : World :=
  match a with
  | .runA sp wantDone => World.runSim sp wantDone w
  | .pauseA => World.pauseSim w
  | .resumeA => World.resumeSim w
  | .stopA => World.stopSim w
  | .tickA => World.tickW w

/-- Apply a sequence of actions in order. -/
def applyActs (acts : List Act) (w : World) : World :=
  acts.foldl (fun s a => applyAct a s) w

/-- True when the list contains a run action. -/
def hasRunAct : List Act → Bool
  | [] => false
  | .runA _ _ :: _ => true
  | _ :: rest => hasRunAct rest

/-- True when, along the trace, no run call happens while the simulator is
paused (pause has been called and resumeIfPaused has not yet followed). -/
def goodActs : World → List Act → Bool
  | _, [] => true
  | w, a :: rest =>
    (match a with
     | .runA _ _ => !w.paused
     | _ => true) && goodActs (applyAct a w) rest

/-- Every duration the step loop can reschedule itself with is at least
100 ms: this holds of all five speed configurations (the tape time, which
is not used for rescheduling, is exempt). -/
def speedsOk (sp : Speeds) : Prop :=
  100 ≤ sp.stepTime ∧ 100 ≤ sp.emptyStepTime ∧ 100 ≤ sp.branchTime

/-- The queue part of the single-pending-step invariant: the queue is
empty or holds exactly one event, whose id is the stored step timer. -/
def queueInv (w : World) : Prop :=
  match w.queue with
  | [] => True
  | [e] => w.stepTimerId = some e.eventId
  | _ :: _ :: _ => False

/-- The single-pending-step invariant: at most one step event is queued
and it matches the step timer, a paused simulator has nothing queued, and
the speed profile reschedules at least one tick ahead. -/
def stepInv (w : World) : Prop :=
  queueInv w ∧ (w.paused = true → w.queue = []) ∧ speedsOk w.speeds

/-! ## Generic animation scheduler model (turing.anim)

The queue of turing.anim holds arbitrary closures.  The claims about the
scheduler exercise three behaviours of a callback: doing nothing,
scheduling another callback with some delay (the re-entrant pattern), and
cancelling an event by id; the inductive type CB defunctionalizes exactly
these. -/

/-- A defunctionalized scheduler callback. -/
inductive CB where
  | nop
  | sched (durationMs : Nat) (k : CB)
  | canc (id : Nat)
deriving DecidableEq

/-- True when the callback never calls turing.anim.cancel. -/
def CB.cancelFree : CB → Bool
  | .nop => true
  | .sched _ k => k.cancelFree
  | .canc _ => false

/-- Fuel weight of a callback: how many further drain iterations firing it
can cause (each nested sched can append one more due event). -/
def CB.fuelWeight : CB → Nat
  | .nop => 0
  | .sched _ k => 1 + k.fuelWeight
  | .canc _ => 0

/-- A pending animation frame of turing.anim.queue_. -/
structure AEvent where
  ticks : Nat
  eventId : Nat
  call : CB

/-- The comparator of the queue sort in turing.anim.loop_ for generic
events. -/
def aeLE (a b : AEvent) : Bool :=
  a.ticks < b.ticks || (a.ticks = b.ticks && a.eventId ≤ b.eventId)

/-- Ordered insertion for the generic queue sort. -/
def insertAE (e : AEvent) : List AEvent → List AEvent
  | [] => [e]
  | x :: xs => if aeLE e x then e :: x :: xs else x :: insertAE e xs

/-- The queue sort of turing.anim.loop_ for generic events; with distinct
event ids the comparator is a strict total order, so the sorted order is
unique and insertion sort agrees with the JavaScript engine sort. -/
def sortAE : List AEvent → List AEvent
  | [] => []
  | e :: rest => insertAE e (sortAE rest)

/-- The module state of turing.anim: the stopped flag, the frame queue,
the dirty flag, the virtual clock, the event-id allocator, and the
adaptive frame-rate controller state.  The instrumentation field fired
lists, in order, the event ids whose callbacks the drain has invoked.

The frame period turing.anim.msPerFrame_ is a JavaScript float whose
value is always the exact rational msN / msD: the module only ever
assigns 1000/60, 1000/20, or the previous value times 6/5, so the period
is held here as that exact fraction (every comparison the module makes on
it is a cross-multiplied integer comparison below; the float arithmetic
of the source agrees with the exact arithmetic at every such comparison
against integral wall-clock intervals). -/
structure AnimSt where
  stopped : Bool
  queue : List AEvent
  queueDirty : Bool
  curTick : Nat
  eventId : Nat
  lastTickStartTime : Nat
  tooSlowTicks : Nat
  msN : Nat
  msD : Nat
  fired : List Nat

namespace AnimSt

/-- Inverse of the maximum frame rate, turing.anim.MAX_FPS_MS_. -/
def MAX_FPS_MS : ℚ := 1000 / 60

/-- Inverse of the minimum frame rate, turing.anim.MIN_FPS_MS_. -/
def MIN_FPS_MS : ℚ := 1000 / 20

/-- The frame period turing.anim.msPerFrame_ as a rational number. -/
def msPerFrame (s : AnimSt) : ℚ :=
  (s.msN : ℚ) / (s.msD : ℚ)

/-- The initial module state of turing.anim (the declaration-time values
of the module variables; the period starts at 1000/60 ms). -/
def initial : AnimSt :=
  { stopped := true
    queue := []
    queueDirty := false
    curTick := 0
    eventId := 1
    lastTickStartTime := 0
    tooSlowTicks := 0
    msN := 1000
    msD := 60
    fired := [] }

/-- turing.anim.getNumTicks_: the ceiling of the duration over the current
frame period, ceil(duration * msD / msN) on the exact fraction. -/
def getNumTicks (s : AnimSt) (duration : Nat) : Nat :=
  (duration * s.msD + (s.msN - 1)) / s.msN

/-- turing.anim.delayTicks: allocate an event id, append the frame due at
the current tick plus the wait, mark the queue dirty, and return the id. -/
def delayTicks (cb : CB) (ticksToWait : Nat) (s : AnimSt) : Nat × AnimSt :=
  (s.eventId,
   { s with
     queue := s.queue ++ [{ ticks := s.curTick + ticksToWait, eventId := s.eventId, call := cb }]
     queueDirty := true
     eventId := s.eventId + 1 })

/-- turing.anim.delay: delayTicks with the duration converted at the
current frame rate. -/
def delayMs (cb : CB) (duration : Nat) (s : AnimSt) : Nat × AnimSt :=
  delayTicks cb (s.getNumTicks duration) s

/-- turing.anim.cancel: splice out the first queued frame with the given
event id, if any. -/
def cancelQ (id : Nat) : List AEvent → List AEvent
  | [] => []
  | e :: rest => if e.eventId = id then rest else e :: cancelQ id rest

/-- turing.anim.cancel acting on the module state. -/
def cancelA (id : Nat) (s : AnimSt) : AnimSt :=
  { s with queue := cancelQ id s.queue }

/-- Run one defunctionalized callback against the module state. -/
def runCB : CB → AnimSt → AnimSt
  | .nop, s => s
  | .sched d k, s => (delayMs k d s).2
  | .canc id, s => cancelA id s

/-- The slowdown step of turing.anim.throttleFrameRate_: when the overrun
counter has passed 20, the frame period grows by the factor 1.2 (times
6/5 on the exact fraction), capped at the slowest rate (the minimum
against 1000/20 keeps the smaller value: the grown period when
6 msN / 5 msD is at most 50, the cap otherwise), and the counter
resets. -/
def throttleBump (s1 : AnimSt) : AnimSt :=
  if 20 < s1.tooSlowTicks then
    if 6 * s1.msN ≤ 250 * s1.msD then
      { s1 with msN := 6 * s1.msN, msD := 5 * s1.msD, tooSlowTicks := 0 }
    else
      { s1 with msN := 1000, msD := 20, tooSlowTicks := 0 }
  else s1

/-- The measurement step of turing.anim.throttleFrameRate_: a tick longer
than 1.05 times the target (tickLength at least 21/20 of msN/msD, as the
cross-multiplied integer comparison) bumps the overrun counter, an
on-time tick halves it (the JavaScript right shift by one), then the
slowdown step runs. -/
def throttleCore (tickLength : ℤ) (s : AnimSt) : AnimSt :=
  if 21 * (s.msN : ℤ) ≤ 20 * (s.msD : ℤ) * tickLength then
    throttleBump { s with tooSlowTicks := s.tooSlowTicks + 1 }
  else
    throttleBump { s with tooSlowTicks := s.tooSlowTicks / 2 }

/-- turing.anim.throttleFrameRate_: measure the wall interval since the
previous tick and adapt the frame period, skipping the warm-up window of
the first thirty ticks and any tick whose predecessor start time was
reset; the previous tick start time is recorded unconditionally. -/
def throttleA (now : Nat) (s : AnimSt) : AnimSt :=
  { (if 30 < s.curTick ∧ s.lastTickStartTime ≠ 0 then
      throttleCore ((now : ℤ) - (s.lastTickStartTime : ℤ)) s
    else s) with lastTickStartTime := now }

/-- Total fuel for one drain: the number of queued frames plus the number
of extra frames their callbacks can append, plus one. -/
def fuelOf (q : List AEvent) : Nat :=
  q.length + (q.map (fun e => e.call.fuelWeight)).sum + 1

/-- The due-event drain of turing.anim.loop_: walk the live queue by
index, invoking each due callback in order (recording its event id in the
instrumentation trace) and counting the fired frames; stop at the first
frame that is not yet due or past the end of the array. -/
def drainA : Nat → Nat → Nat → AnimSt → AnimSt × Nat
  | 0, _, n, s => (s, n)
  | fuel + 1, i, n, s =>
    match s.queue.get? i with
    | none => (s, n)
    | some fr =>
      if fr.ticks ≤ s.curTick then
        drainA fuel (i + 1) (n + 1) (runCB fr.call { s with fired := s.fired ++ [fr.eventId] })
      else (s, n)

/-- One iteration of turing.anim.loop_: when not stopped, throttle the
frame rate against the wall clock, sort the queue when dirty, drain the
due frames from the live queue, splice off the fired count, and advance
the tick. -/
def tickAnim (now : Nat) (s : AnimSt) : AnimSt :=
  if s.stopped then s
  else
    let sa := throttleA now s
    let sb := if sa.queueDirty then { sa with queue := sortAE sa.queue, queueDirty := false }
              else sa
    let r := drainA (fuelOf sb.queue) 0 0 sb
    { r.1 with queue := r.1.queue.drop r.2, curTick := r.1.curTick + 1 }

/-- turing.anim.start. -/
def startA (s : AnimSt) : AnimSt :=
  { s with stopped := false }

/-- turing.anim.stop together with resetFpsController_. -/
def stopA (s : AnimSt) : AnimSt :=
  { s with stopped := true, tooSlowTicks := 0, lastTickStartTime := 0 }

/-- turing.anim.reset: stop, clear the queue and clock, reset the id
allocator and restore the fastest frame rate. -/
def resetA (s : AnimSt) : AnimSt :=
  { stopA s with
    queue := []
    curTick := 0
    queueDirty := false
    eventId := 1
    msN := 1000
    msD := 60 }

end AnimSt

/-! ## Concrete scenarios used by counterexamples and witnesses -/

/-- A one-track program looping forever: scan right twice, branch back two
slots. -/
def loopProg : Program := Program.init.change [["R", "R", "B2"]]

/-- A two-phase program: the top track consumes written symbols leftwards
in a three-op loop until it reads a blank, then the conditional down
branch drops to the bottom track, which loops forever in a different
three-op cycle. -/
def phaseProg : Program := Program.init.change [["D_", "L", "B2"], ["R", "R", "B2"]]

/-- A tape holding the symbol zero on the eight cells at positions -7
through 0, blank elsewhere, head at 0. -/
def phaseTape : Tape :=
  { Tape.init with contents := fun i => if -7 ≤ i ∧ i ≤ 0 then "0" else "" }

/-- The scheduler state of the cancellation scenario: from a started
scheduler, four events are scheduled in order: a no-op due now (id 1), a
callback cancelling id 1 due now (id 2), a no-op due now (id 3), and a
no-op due five ticks later (id 4). -/
def c5State : AnimSt :=
  (AnimSt.delayTicks CB.nop 5
    (AnimSt.delayTicks CB.nop 0
      (AnimSt.delayTicks (CB.canc 1) 0
        (AnimSt.delayTicks CB.nop 0 (AnimSt.startA AnimSt.initial)).2).2).2).2

/-- The scheduler state of the re-entrant zero-delay scenario: from a
started scheduler, one event (id 1) is scheduled with duration 0 whose
callback schedules a no-op (which becomes id 2) with duration 0. -/
def c4State : AnimSt :=
  (AnimSt.delayMs (CB.sched 0 CB.nop) 0 (AnimSt.startA AnimSt.initial)).2

/-- A throttle workload segment: n animation-loop iterations whose
wall-clock start times continue the 100 ms grid from the given start
index, every tick far over the frame-period target. -/
def c7seg (start n : Nat) (s : AnimSt) : AnimSt :=
  (List.range n).foldl (fun t i => AnimSt.tickAnim (100 * (start + i + 1)) t) s

/-- One hundred uniformly slow ticks on a started scheduler. -/
def c7s100 : AnimSt := c7seg 0 100 (AnimSt.startA AnimSt.initial)

/-- 178 uniformly slow ticks: the seventh throttle event has just clamped
the frame period to the 50 ms cap. -/
def c7s178 : AnimSt := c7seg 100 78 c7s100

/-- 198 uniformly slow ticks: the overrun counter is back at the
threshold. -/
def c7s198 : AnimSt := c7seg 178 20 c7s178

/-- 199 uniformly slow ticks: the eighth throttle event has fired at the
cap. -/
def c7s199 : AnimSt := c7seg 198 1 c7s198

/-- A running simulator whose next step revisits position (0, 0) for the
eighth time: the stored run count of that position is already 7. -/
def c3World : World :=
  { World.mkWorld loopProg Tape.init 40 with
    progAttached := true
    tapeAttached := true
    stepTimerId := some 1
    queue := [{ ticks := 0, eventId := 1 }]
    runCount := fun q => if q = (0, 0) then 7 else 0 }

/-- A running simulator that has already dispatched 41 operations under a
step limit of 40, with a done callback registered and a step event
pending: the next step call halts. -/
def c2World : World :=
  { World.mkWorld loopProg Tape.init 40 with
    progAttached := true
    tapeAttached := true
    stepTimerId := some 1
    queue := [{ ticks := 0, eventId := 1 }]
    stepCount := 41
    doneRegistered := true }

/-- A running simulator under a step limit of 40 that has not reached the
limit: the next step call dispatches an operation. -/
def c2Low : World :=
  { World.mkWorld loopProg Tape.init 40 with
    progAttached := true
    tapeAttached := true
    stepTimerId := some 1
    queue := [{ ticks := 0, eventId := 1 }] }

/-- A started scheduler past the warm-up window whose overrun counter sits
at the threshold and whose frame period has been throttled to 20 ms. -/
def c7State : AnimSt :=
  { AnimSt.initial with
    stopped := false
    curTick := 31
    lastTickStartTime := 5
    tooSlowTicks := 20
    msN := 20
    msD := 1 }

/-- A running simulator about to execute a conditional down branch: the
program has a D0 at the start of the top track, the tape holds a zero
under the head, and a step event with id 1 is pending. -/
def c9World : World :=
  { World.mkWorld (Program.init.change [["D0", "R"], ["L", "R"]]) (Tape.init.print "0") 0 with
    progAttached := true
    tapeAttached := true
    stepTimerId := some 1
    queue := [{ ticks := 0, eventId := 1 }] }

/-! ## Long concrete executions, staged in hundred-tick chunks

The counterexample runs below iterate the animation loop several hundred
times.  Naming each hundred-tick stage lets the checker evaluate the run
stage by stage (each stage's value is shared by the next), which keeps
evaluation shallow. -/

/-- The two-phase boring-loop scenario: a fresh simulator over phaseProg
and phaseTape with step limit 100, after run at normal speed. -/
def c3w0 : World := applyAct (Act.runA .normal false) (World.mkWorld phaseProg phaseTape 100)

/-- c3w0 after 100 animation-loop ticks. -/
def c3w100 : World := applyActs (List.replicate 100 Act.tickA) c3w0

/-- c3w0 after 200 animation-loop ticks. -/
def c3w200 : World := applyActs (List.replicate 100 Act.tickA) c3w100

/-- c3w0 after 300 animation-loop ticks. -/
def c3w300 : World := applyActs (List.replicate 100 Act.tickA) c3w200

/-- c3w0 after 400 animation-loop ticks. -/
def c3w400 : World := applyActs (List.replicate 100 Act.tickA) c3w300

/-- c3w0 after 500 animation-loop ticks. -/
def c3w500 : World := applyActs (List.replicate 100 Act.tickA) c3w400

/-- c3w0 after 600 animation-loop ticks. -/
def c3w600 : World := applyActs (List.replicate 100 Act.tickA) c3w500

/-- c3w0 after 669 animation-loop ticks: 40 steps have executed. -/
def c3w669 : World := applyActs (List.replicate 69 Act.tickA) c3w600

/-- c3w0 after 670 animation-loop ticks: the 41st step has executed. -/
def c3w670 : World := applyAct Act.tickA c3w669

/-- The step-limit scenario: a fresh simulator over the never-halting
loopProg with step limit 40, after run at normal speed with a done
callback registered. -/
def c2w0 : World := applyAct (Act.runA .normal true) (World.mkWorld loopProg Tape.init 40)

/-- c2w0 after 100 animation-loop ticks. -/
def c2w100 : World := applyActs (List.replicate 100 Act.tickA) c2w0

/-- c2w0 after 200 animation-loop ticks. -/
def c2w200 : World := applyActs (List.replicate 100 Act.tickA) c2w100

/-- c2w0 after 300 animation-loop ticks. -/
def c2w300 : World := applyActs (List.replicate 100 Act.tickA) c2w200

/-- c2w0 after 400 animation-loop ticks. -/
def c2w400 : World := applyActs (List.replicate 100 Act.tickA) c2w300

/-- c2w0 after 500 animation-loop ticks. -/
def c2w500 : World := applyActs (List.replicate 100 Act.tickA) c2w400

/-- c2w0 after 600 animation-loop ticks. -/
def c2w600 : World := applyActs (List.replicate 100 Act.tickA) c2w500

/-- c2w0 after 645 animation-loop ticks: 41 steps have executed and the
done callback has not fired. -/
def c2w645 : World := applyActs (List.replicate 45 Act.tickA) c2w600

/-- c2w0 after 646 animation-loop ticks: the halting step call has run. -/
def c2w646 : World := applyAct Act.tickA c2w645

/-! ## Helper lemmas -/

theorem Program.goToNextPos_end (p : Program) :
    p.goToNextPos.nextPosIsEnd = p.nextPosIsEnd := by
  unfold Program.goToNextPos
  split <;> rfl

theorem dispatch_bareD (p : Program) (t : Tape) :
    dispatch p t "D" = (p.setNextPos ((p.curTrack : Int) + 1) p.curTrackPos, t, false) := by
  unfold dispatch
  rw [if_neg (by decide), if_neg (by decide), if_neg (by decide), if_neg (by decide),
    if_pos (by decide), if_pos (Or.inl (by decide))]

theorem dispatch_condD (p : Program) (t : Tape) (op : String)
    (hop : op = "D0" ∨ op = "D1" ∨ op = "D_") :
    dispatch p t op =
      if t.getCurSymbol = charAt1 op then
        (p.setNextPos ((p.curTrack : Int) + 1) p.curTrackPos, t, false)
      else (p, t, true) := by
  rcases hop with h | h | h <;> subst h <;> unfold dispatch <;>
    rw [if_neg (by decide), if_neg (by decide), if_neg (by decide), if_neg (by decide),
      if_pos (by decide)] <;>
    simp +decide

namespace World

theorem stepExec_prog_tape (w : World) :
    (stepExec w).prog =
      (if (dispatch w.prog w.tape (stripStar w.prog.getCurOp)).2.2 then
        (dispatch w.prog w.tape (stripStar w.prog.getCurOp)).1.setNextPos
          ((dispatch w.prog w.tape (stripStar w.prog.getCurOp)).1.curTrack : Int)
          (((dispatch w.prog w.tape (stripStar w.prog.getCurOp)).1.curTrackPos : Int) + 1)
      else (dispatch w.prog w.tape (stripStar w.prog.getCurOp)).1) ∧
    (stepExec w).tape = (dispatch w.prog w.tape (stripStar w.prog.getCurOp)).2.1 := by
  by_cases h : 0 < w.stepLimit <;>
    simp [stepExec, schedStep, speedUpBoringLoops, h]

theorem stepExec_frame (w : World) :
    (stepExec w).doneRegistered = w.doneRegistered ∧
    (stepExec w).doneCount = w.doneCount ∧
    (stepExec w).stepLimit = w.stepLimit ∧
    (stepExec w).paused = w.paused ∧
    (stepExec w).curTick = w.curTick ∧
    (stepExec w).progAttached = w.progAttached ∧
    (stepExec w).tapeAttached = w.tapeAttached := by
  by_cases h : 0 < w.stepLimit <;>
    simp [stepExec, schedStep, speedUpBoringLoops, h]

theorem stepAdvance_noDone (w1 : World) (h : w1.doneRegistered = false) :
    (stepAdvance w1).doneRegistered = false ∧ (stepAdvance w1).doneCount = w1.doneCount := by
  unfold stepAdvance
  split
  · simp [stopSim, h]
  · exact ⟨((stepExec_frame _).1).trans h, (stepExec_frame _).2.1⟩

theorem stepCb_noDone (w : World) (h : w.doneRegistered = false) :
    (stepCb w).doneRegistered = false ∧ (stepCb w).doneCount = w.doneCount := by
  unfold stepCb
  split
  · exact ⟨h, rfl⟩
  · exact stepAdvance_noDone _ h

theorem drainW_pres (P : World → Prop) (hstep : ∀ w, P w → P (stepCb w)) :
    ∀ (fuel i n : Nat) (w : World), P w → P (drainW fuel i n w).1 := by
  intro fuel
  induction fuel with
  | zero => intro i n w h; exact h
  | succ f ih =>
    intro i n w h
    rw [drainW]
    cases hq : w.queue.get? i with
    | none => exact h
    | some fr =>
      by_cases hd : fr.ticks ≤ w.curTick
      · simpa [hd] using ih (i + 1) (n + 1) (stepCb w) (hstep w h)
      · simpa [hd] using h

theorem tickW_pres (P : World → Prop)
    (hstep : ∀ w, P w → P (stepCb w))
    (hframe : ∀ (w : World) (q : List StepEv) (b : Bool) (c : Nat),
      P w → P { w with queue := q, queueDirty := b, curTick := c }) :
    ∀ w, P w → P (tickW w) := by
  intro w h
  unfold tickW
  have h1 : P (if w.queueDirty then { w with queue := sortSE w.queue, queueDirty := false }
               else w) := by
    split
    · exact hframe w (sortSE w.queue) false w.curTick h
    · exact h
  exact hframe _ _ _ _ (drainW_pres P hstep _ 0 0 _ h1)

end World

theorem noRun_noDone :
    ∀ (acts : List Act) (w : World), hasRunAct acts = false → w.doneRegistered = false →
      (applyActs acts w).doneRegistered = false ∧ (applyActs acts w).doneCount = w.doneCount := by
  intro acts
  induction acts with
  | nil => intro w _ h; exact ⟨h, rfl⟩
  | cons a rest ih =>
    intro w hr h
    have hr2 : hasRunAct rest = false := by
      cases a <;> simp_all [hasRunAct]
    cases a with
    | runA sp b => simp [hasRunAct] at hr
    | pauseA => exact ih _ hr2 h
    | resumeA =>
      have hres : (applyAct .resumeA w).doneRegistered = false ∧
          (applyAct .resumeA w).doneCount = w.doneCount := by
        by_cases hp : w.paused <;> simp [applyAct, World.resumeSim, World.schedStep, hp, h]
      have := ih (applyAct .resumeA w) hr2 hres.1
      exact ⟨this.1, this.2.trans hres.2⟩
    | stopA =>
      have hstop : (applyAct .stopA w).doneRegistered = false ∧
          (applyAct .stopA w).doneCount = w.doneCount := by
        simp [applyAct, World.stopSim, h]
      have := ih (applyAct .stopA w) hr2 hstop.1
      exact ⟨this.1, this.2.trans hstop.2⟩
    | tickA =>
      have htick := World.tickW_pres
        (fun x => x.doneRegistered = false ∧ x.doneCount = w.doneCount)
        (fun x hx => by
          have h2 := World.stepCb_noDone x hx.1
          exact ⟨h2.1, h2.2.trans hx.2⟩)
        (fun x q b c hx => hx)
        w ⟨h, rfl⟩
      have := ih (applyAct .tickA w) hr2 htick.1
      exact ⟨this.1, this.2.trans htick.2⟩

theorem cancelQ_of_not_mem (id : Nat) :
    ∀ l : List AEvent, (∀ e ∈ l, e.eventId ≠ id) → AnimSt.cancelQ id l = l := by
  intro l
  induction l with
  | nil => intro _; rfl
  | cons e rest ih =>
    intro h
    have he : e.eventId ≠ id := h e (List.mem_cons_self e rest)
    rw [AnimSt.cancelQ, if_neg he, ih (fun x hx => h x (List.mem_cons_of_mem e hx))]

/-! ## Claim C5 -/

/-- Claim C5, corrected part: cancelling an event id that is not present
in the pending queue (an unknown id, or an id whose event has already
fired and been removed) leaves the scheduler state exactly unchanged: no
pending event and no behaviour is affected. -/
theorem claim_C5 (s : AnimSt) (id : Nat) (h : ∀ e ∈ s.queue, e.eventId ≠ id) :
    AnimSt.cancelA id s = s := by
  unfold AnimSt.cancelA
  rw [cancelQ_of_not_mem id s.queue h]

/-- Witness for claim C5: cancelling the unknown id 99 on a scheduler
with one pending event changes nothing. -/
theorem claim_C5_witness :
    AnimSt.cancelA 99 (AnimSt.delayTicks CB.nop 3 (AnimSt.startA AnimSt.initial)).2 =
      (AnimSt.delayTicks CB.nop 3 (AnimSt.startA AnimSt.initial)).2 :=
  claim_C5 _ 99 (by decide)

/-- Counterexample for claim C5 as stated: in the c5State scenario all of
events 1, 2 and 3 are due at the first tick, and event 2 cancels the
already-fired id 1 from within the drain.  The claim asserts this is a
no-op for every other still-pending due event, but after one tick the
fired trace is only ids 1 and 2 and the queue retains only id 4: the due
event 3 was dropped without ever firing (and stays dropped on the next
tick).  The cancel spliced the still-queued entry of the fired event 1,
shifting the live array under the drain, so the end-of-drain splice
removed the unfired event 3. -/
theorem claim_C5_counterexample :
    (AnimSt.tickAnim 7 c5State).fired = [1, 2] ∧
    ((AnimSt.tickAnim 7 c5State).queue.map (fun e => e.eventId)) = [4] ∧
    (AnimSt.tickAnim 9 (AnimSt.tickAnim 7 c5State)).fired = [1, 2] ∧
    ((AnimSt.tickAnim 9 (AnimSt.tickAnim 7 c5State)).queue.map (fun e => e.eventId)) = [4] := by
  decide

/-! ## Claim C6 -/

/-- Claim C6: stopping twice produces exactly the state of stopping once;
one stop invokes the done callback exactly once when one is registered and
never otherwise, clearing it; and once the callback is gone (exactly the
state after any stop), no sequence of pause, resume, stop and tick actions
that does not contain a new run ever invokes a done callback again.
Together these give the claim: stop is idempotent, and the callback
registered by a run fires exactly once, at the first stop of that run. -/
theorem claim_C6 :
    (∀ w : World, World.stopSim (World.stopSim w) = World.stopSim w) ∧
    (∀ w : World,
      (World.stopSim w).doneCount = w.doneCount + (if w.doneRegistered then 1 else 0) ∧
      (World.stopSim w).doneRegistered = false) ∧
    (∀ (w : World) (acts : List Act), hasRunAct acts = false → w.doneRegistered = false →
      (applyActs acts w).doneCount = w.doneCount ∧
      (applyActs acts w).doneRegistered = false) := by
  refine ⟨fun w => rfl, fun w => ⟨rfl, rfl⟩, fun w acts hr h => ?_⟩
  have := noRun_noDone acts w hr h
  exact ⟨this.2, this.1⟩

/-- Witness for claim C6: after a run and a stop, ticking and stopping
again never bumps the done-invocation count past one. -/
theorem claim_C6_witness :
    (applyActs [Act.tickA, Act.stopA, Act.tickA]
        (World.stopSim (applyAct (Act.runA .normal true) (World.mkWorld loopProg Tape.init 40)))).doneCount =
      (World.stopSim (applyAct (Act.runA .normal true) (World.mkWorld loopProg Tape.init 40))).doneCount ∧
    (applyActs [Act.tickA, Act.stopA, Act.tickA]
        (World.stopSim (applyAct (Act.runA .normal true) (World.mkWorld loopProg Tape.init 40)))).doneRegistered =
      false :=
  claim_C6.2.2 _ [Act.tickA, Act.stopA, Act.tickA] (by decide) (by decide)

/-! ## Claim C8 -/

/-- Claim C8: for all integer arguments, setNextPos with an in-range track
and index stores that position as the next position and clears the end
flag, and with any out-of-range argument sets the end flag and leaves the
stored next track and next index (and everything else) unchanged. -/
theorem claim_C8 (p : Program) (track pos : Int) :
    (0 ≤ track ∧ track < (p.numActiveTracks : Int) ∧
        0 ≤ pos ∧ pos < (p.numOpsPerTrack : Int) →
      p.setNextPos track pos =
        { p with nextTrack := track.toNat, nextTrackPos := pos.toNat, nextPosIsEnd := false }) ∧
    (¬(0 ≤ track ∧ track < (p.numActiveTracks : Int) ∧
        0 ≤ pos ∧ pos < (p.numOpsPerTrack : Int)) →
      p.setNextPos track pos = { p with nextPosIsEnd := true }) := by
  constructor
  · intro h
    unfold Program.setNextPos
    rw [if_pos h]
  · intro h
    unfold Program.setNextPos
    rw [if_neg h]

/-- Witness for claim C8: on a two-track program, position (1, 2) is
stored and clears the end flag, while track 5 sets the end flag and leaves
the rest unchanged. -/
theorem claim_C8_witness :
    (Program.init.change [["R"], ["L"]]).setNextPos 1 2 =
      { Program.init.change [["R"], ["L"]] with
        nextTrack := 1, nextTrackPos := 2, nextPosIsEnd := false } ∧
    (Program.init.change [["R"], ["L"]]).setNextPos 5 0 =
      { Program.init.change [["R"], ["L"]] with nextPosIsEnd := true } :=
  ⟨(claim_C8 (Program.init.change [["R"], ["L"]]) 1 2).1 (by decide),
   (claim_C8 (Program.init.change [["R"], ["L"]]) 5 0).2 (by decide)⟩

/-! ## Claim C10 -/

/-- Claim C10: stop itself never mutates the tape (contents map, head,
maximum written position) or the program (tracks, current and next
position fields): both heap objects are equal before and after.  Stop only
cancels the pending step event from the queue, clears the simulator's own
program and tape references and its step timer, and fires (the modelled
done callback performs no effect itself) and clears the done callback,
leaving every other simulator field unchanged. -/
theorem claim_C10 (w : World) :
    (World.stopSim w).prog = w.prog ∧
    (World.stopSim w).tape = w.tape ∧
    (World.stopSim w).progAttached = false ∧
    (World.stopSim w).tapeAttached = false ∧
    (World.stopSim w).stepTimerId = none ∧
    (World.stopSim w).queue = (match w.stepTimerId with
      | some id => cancelQW id w.queue
      | none => w.queue) ∧
    (World.stopSim w).doneCount = w.doneCount + (if w.doneRegistered then 1 else 0) ∧
    (World.stopSim w).doneRegistered = false ∧
    (World.stopSim w).stepCount = w.stepCount ∧
    (World.stopSim w).stepLimit = w.stepLimit ∧
    (World.stopSim w).runCount = w.runCount ∧
    (World.stopSim w).speeds = w.speeds ∧
    (World.stopSim w).paused = w.paused ∧
    (World.stopSim w).curTick = w.curTick ∧
    (World.stopSim w).nextEventId = w.nextEventId :=
  ⟨rfl, rfl, rfl, rfl, rfl, rfl, rfl, rfl, rfl, rfl, rfl, rfl, rfl, rfl, rfl⟩

/-! ## Claim C9 -/

/-- Claim C9: for a step whose operation, after stripping the editable
marker, is a bare D or a D with a symbol from the closed vocabulary, the
step leaves the tape unchanged, and: when the op is bare D or the tape's
current symbol equals the op's symbol, the program's next position is set
(through setNextPos, which resolves out-of-range positions to the end
sentinel) to the slot one track down at the same index, with no implicit
advance; otherwise only the implicit advance to the next index happens. -/
theorem claim_C9 (w : World)
    (hguard : ¬(w.tapeAttached = false ∨ w.progAttached = false ∨ w.stepTimerId = none))
    (hend : w.prog.nextPosIsEnd = false)
    (hlim : ¬(0 < w.stepLimit ∧ w.stepLimit < w.stepCount))
    (hop : stripStar (w.prog.goToNextPos).getCurOp = "D" ∨
           stripStar (w.prog.goToNextPos).getCurOp = "D0" ∨
           stripStar (w.prog.goToNextPos).getCurOp = "D1" ∨
           stripStar (w.prog.goToNextPos).getCurOp = "D_") :
    (World.stepCb w).tape = w.tape ∧
    (World.stepCb w).prog =
      (if stripStar (w.prog.goToNextPos).getCurOp = "D" ∨
          w.tape.getCurSymbol = charAt1 (stripStar (w.prog.goToNextPos).getCurOp) then
        (w.prog.goToNextPos).setNextPos (((w.prog.goToNextPos).curTrack : Int) + 1)
          ((w.prog.goToNextPos).curTrackPos : Int)
      else
        (w.prog.goToNextPos).setNextPos ((w.prog.goToNextPos).curTrack : Int)
          (((w.prog.goToNextPos).curTrackPos : Int) + 1)) := by
  have hcb : World.stepCb w =
      World.stepExec { w with stepTimerId := none, prog := w.prog.goToNextPos } := by
    unfold World.stepCb
    rw [if_neg hguard]
    unfold World.stepAdvance
    rw [if_neg ?hc]
    case hc =>
      intro hor
      rcases hor with h1 | h2
      · rw [Program.goToNextPos_end, hend] at h1
        cases h1
      · exact hlim h2
  rw [hcb]
  have hp : (World.stepExec { w with stepTimerId := none, prog := w.prog.goToNextPos }).prog =
      (if (dispatch (w.prog.goToNextPos) w.tape
            (stripStar (w.prog.goToNextPos).getCurOp)).2.2 then
        (dispatch (w.prog.goToNextPos) w.tape
            (stripStar (w.prog.goToNextPos).getCurOp)).1.setNextPos
          ((dispatch (w.prog.goToNextPos) w.tape
              (stripStar (w.prog.goToNextPos).getCurOp)).1.curTrack : Int)
          (((dispatch (w.prog.goToNextPos) w.tape
              (stripStar (w.prog.goToNextPos).getCurOp)).1.curTrackPos : Int) + 1)
      else (dispatch (w.prog.goToNextPos) w.tape
            (stripStar (w.prog.goToNextPos).getCurOp)).1) :=
    (World.stepExec_prog_tape _).1
  have ht : (World.stepExec { w with stepTimerId := none, prog := w.prog.goToNextPos }).tape =
      (dispatch (w.prog.goToNextPos) w.tape (stripStar (w.prog.goToNextPos).getCurOp)).2.1 :=
    (World.stepExec_prog_tape _).2
  rcases hop with h | h | h | h
  · rw [h] at hp ht
    rw [dispatch_bareD] at hp ht
    simp only [Prod.fst, Prod.snd] at hp ht
    rw [h, if_pos (Or.inl rfl)]
    simp at hp
    exact ⟨ht, hp⟩
  · rw [h] at hp ht
    rw [dispatch_condD _ _ _ (by simp)] at hp ht
    rw [h]
    by_cases hsym : w.tape.getCurSymbol = charAt1 "D0"
    · rw [if_pos hsym] at hp ht
      rw [if_pos (Or.inr hsym)]
      simp at hp
      exact ⟨ht, hp⟩
    · rw [if_neg hsym] at hp ht
      rw [if_neg (by rintro (hd | hd); exacts [absurd hd (by decide), hsym hd])]
      simp at hp
      exact ⟨ht, hp⟩
  · rw [h] at hp ht
    rw [dispatch_condD _ _ _ (by simp)] at hp ht
    rw [h]
    by_cases hsym : w.tape.getCurSymbol = charAt1 "D1"
    · rw [if_pos hsym] at hp ht
      rw [if_pos (Or.inr hsym)]
      simp at hp
      exact ⟨ht, hp⟩
    · rw [if_neg hsym] at hp ht
      rw [if_neg (by rintro (hd | hd); exacts [absurd hd (by decide), hsym hd])]
      simp at hp
      exact ⟨ht, hp⟩
  · rw [h] at hp ht
    rw [dispatch_condD _ _ _ (by simp)] at hp ht
    rw [h]
    by_cases hsym : w.tape.getCurSymbol = charAt1 "D_"
    · rw [if_pos hsym] at hp ht
      rw [if_pos (Or.inr hsym)]
      simp at hp
      exact ⟨ht, hp⟩
    · rw [if_neg hsym] at hp ht
      rw [if_neg (by rintro (hd | hd); exacts [absurd hd (by decide), hsym hd])]
      simp at hp
      exact ⟨ht, hp⟩

/-- Witness for claim C9: in the concrete c9World, the pending step
executes the D0 op against a tape holding a zero, so the branch is taken:
the tape is unchanged and the next position becomes the same index one
track down. -/
theorem claim_C9_witness :
    (World.stepCb c9World).tape = c9World.tape ∧
    (World.stepCb c9World).prog =
      (if stripStar (c9World.prog.goToNextPos).getCurOp = "D" ∨
          c9World.tape.getCurSymbol = charAt1 (stripStar (c9World.prog.goToNextPos).getCurOp) then
        (c9World.prog.goToNextPos).setNextPos (((c9World.prog.goToNextPos).curTrack : Int) + 1)
          ((c9World.prog.goToNextPos).curTrackPos : Int)
      else
        (c9World.prog.goToNextPos).setNextPos ((c9World.prog.goToNextPos).curTrack : Int)
          (((c9World.prog.goToNextPos).curTrackPos : Int) + 1)) :=
  claim_C9 c9World (by decide) (by decide) (by decide) (by decide)

/-! ## Claim C3 -/

theorem World.stepExec_stepCount (w : World) :
    (World.stepExec w).stepCount = w.stepCount + 1 := by
  by_cases h : 0 < w.stepLimit <;>
    simp [World.stepExec, World.schedStep, World.speedUpBoringLoops, h]

theorem World.stepExec_speeds (w : World) :
    (World.stepExec w).speeds =
      (if 0 < w.stepLimit then World.speedUpBoringLoops w else w).speeds := by
  by_cases h : 0 < w.stepLimit <;>
    simp [World.stepExec, World.schedStep, h]

theorem World.stepCb_noHalt (w : World)
    (hguard : ¬(w.tapeAttached = false ∨ w.progAttached = false ∨ w.stepTimerId = none))
    (hend : w.prog.nextPosIsEnd = false)
    (hlim : ¬(0 < w.stepLimit ∧ w.stepLimit < w.stepCount)) :
    World.stepCb w = World.stepExec { w with stepTimerId := none, prog := w.prog.goToNextPos } := by
  unfold World.stepCb
  rw [if_neg hguard]
  unfold World.stepAdvance
  rw [if_neg ?hc]
  case hc =>
    intro hor
    rcases hor with h1 | h2
    · rw [Program.goToNextPos_end, hend] at h1
      cases h1
    · exact hlim h2

theorem World.stepCb_halt (w : World)
    (hguard : ¬(w.tapeAttached = false ∨ w.progAttached = false ∨ w.stepTimerId = none))
    (hhalt : w.prog.nextPosIsEnd = true ∨ (0 < w.stepLimit ∧ w.stepLimit < w.stepCount)) :
    World.stepCb w = World.stopSim { w with stepTimerId := none, prog := w.prog.goToNextPos } := by
  unfold World.stepCb
  rw [if_neg hguard]
  unfold World.stepAdvance
  rw [if_pos ?hc]
  case hc =>
    rcases hhalt with h1 | h2
    · exact Or.inl (by rw [Program.goToNextPos_end, h1])
    · exact Or.inr h2

/-- Claim C3, corrected: the boring-loop accelerator is driven by the run
count of the current position alone.  A guarded, non-halting step whose
post-advance position already has a run count past the very-boring
threshold (the seventh revisit and beyond) forces the Ludicrous profile;
a run call resets the run counts and the speed profile to the selected
one, and stop leaves both untouched, so they reset only at the next run.
The monotonicity part of the original claim is refuted separately: the
speed can revert from Ludicrous to Fast mid-run when the pointer moves to
a position whose count is in the somewhat-boring band. -/
theorem claim_C3 :
    (∀ w : World,
      ¬(w.tapeAttached = false ∨ w.progAttached = false ∨ w.stepTimerId = none) →
      w.prog.nextPosIsEnd = false →
      ¬(0 < w.stepLimit ∧ w.stepLimit < w.stepCount) →
      0 < w.stepLimit →
      VERY_BORING_REPEAT_COUNT <
        w.runCount ((w.prog.goToNextPos).curTrack, (w.prog.goToNextPos).curTrackPos) →
      (World.stepCb w).speeds = SPEED_CONFIG .ludicrous) ∧
    (∀ (w : World) (sp : SpeedSetting) (d : Bool), w.stepTimerId = none →
      (World.runSim sp d w).runCount = (fun _ => 0) ∧
      (World.runSim sp d w).speeds = SPEED_CONFIG sp) ∧
    (∀ w : World,
      (World.stopSim w).runCount = w.runCount ∧ (World.stopSim w).speeds = w.speeds) := by
  refine ⟨fun w hguard hend hlim hpos hcount => ?_, fun w sp d h => ?_, fun w => ⟨rfl, rfl⟩⟩
  · rw [World.stepCb_noHalt w hguard hend hlim, World.stepExec_speeds]
    rw [if_pos hpos]
    exact if_pos hcount
  · have hc : ¬(w.stepTimerId ≠ none) := by simp [h]
    constructor <;> simp [World.runSim, World.schedStep, if_neg hc]

/-- Witness for claim C3: in c3World the pending step revisits (0, 0) with
a stored count of 7, so the step forces the Ludicrous profile; and a run
call on a fresh simulator resets the counts and selects the requested
profile. -/
theorem claim_C3_witness :
    (World.stepCb c3World).speeds = SPEED_CONFIG .ludicrous ∧
    (World.runSim .fast false (World.mkWorld loopProg Tape.init 40)).runCount = (fun _ => 0) ∧
    (World.runSim .fast false (World.mkWorld loopProg Tape.init 40)).speeds =
      SPEED_CONFIG .fast := by
  refine ⟨claim_C3.1 c3World (by decide) (by decide) (by decide) (by decide) (by decide), ?_⟩
  exact claim_C3.2.1 (World.mkWorld loopProg Tape.init 40) .fast false (by decide)

set_option maxRecDepth 30000 in
set_option maxHeartbeats 2000000 in
/-- Counterexample for claim C3 as stated: running the two-phase program
with a step limit from a fresh simulator, the speed profile is Ludicrous
after 669 loop ticks (40 executed steps, the top-track loop having been
revisited past the very-boring threshold), yet one tick later the 41st
step, the sixth visit to the bottom-track loop head with a stored count
of 5, forces the profile back down to Fast: the forced speed reverts from
Ludicrous to a slower profile within the same run, refuting the
monotonicity part of the claim. -/
theorem claim_C3_counterexample :
    c3w100.stepCount = 4 ∧ c3w200.stepCount = 7 ∧ c3w300.stepCount = 10 ∧
    c3w400.stepCount = 13 ∧ c3w500.stepCount = 18 ∧ c3w600.stepCount = 29 ∧
    c3w669.stepCount = 40 ∧ c3w669.speeds = SPEED_CONFIG .ludicrous ∧
    c3w670.stepCount = 41 ∧ c3w670.speeds = SPEED_CONFIG .fast := by
  decide

/-! ## Claim C2 -/

theorem World.stepCb_limit (w : World) (h : w.stepLimit = 40 ∧ w.stepCount ≤ 41) :
    (World.stepCb w).stepLimit = 40 ∧ (World.stepCb w).stepCount ≤ 41 := by
  unfold World.stepCb
  split
  · exact h
  · unfold World.stepAdvance
    split
    · exact h
    · rename_i hnh
      refine ⟨(World.stepExec_frame _).2.2.1.trans h.1, ?_⟩
      rw [World.stepExec_stepCount]
      have hc : ¬(0 < w.stepLimit ∧ w.stepLimit < w.stepCount) := fun hx => hnh (Or.inr hx)
      rw [h.1] at hc
      show w.stepCount + 1 ≤ 41
      omega

/-- Claim C2, corrected.  Part one: under a step limit of 40, the step
count never passes 41 across any action, so a 42nd operation dispatch
never happens (the 41st does, refuted separately).  Part two: a step call
arriving with the count already past the limit dispatches nothing (the
count stays), stops the simulator and fires the registered done callback
exactly then.  Part three: a guarded, non-halting step call below the
limit dispatches exactly one operation and never touches the done
callback, so the halt happens exactly once the step count exceeds the
limit. -/
theorem claim_C2 :
    (∀ (a : Act) (w : World), w.stepLimit = 40 → w.stepCount ≤ 41 →
      (applyAct a w).stepLimit = 40 ∧ (applyAct a w).stepCount ≤ 41) ∧
    (∀ w : World,
      ¬(w.tapeAttached = false ∨ w.progAttached = false ∨ w.stepTimerId = none) →
      0 < w.stepLimit → w.stepLimit < w.stepCount →
      (World.stepCb w).doneCount = w.doneCount + (if w.doneRegistered then 1 else 0) ∧
      (World.stepCb w).stepCount = w.stepCount ∧
      (World.stepCb w).progAttached = false ∧
      (World.stepCb w).stepTimerId = none) ∧
    (∀ w : World,
      ¬(w.tapeAttached = false ∨ w.progAttached = false ∨ w.stepTimerId = none) →
      w.prog.nextPosIsEnd = false →
      ¬(0 < w.stepLimit ∧ w.stepLimit < w.stepCount) →
      (World.stepCb w).stepCount = w.stepCount + 1 ∧
      (World.stepCb w).doneCount = w.doneCount) := by
  refine ⟨fun a w h1 h2 => ?_, fun w hguard hpos hlim => ?_, fun w hguard hend hlim => ?_⟩
  · cases a with
    | runA sp d =>
      by_cases hr : w.stepTimerId ≠ none
      · simpa [applyAct, World.runSim, hr] using ⟨h1, h2⟩
      · simp [applyAct, World.runSim, hr, World.schedStep]
        exact h1
    | pauseA => exact ⟨h1, h2⟩
    | resumeA =>
      by_cases hp : w.paused <;>
        simpa [applyAct, World.resumeSim, World.schedStep, hp] using ⟨h1, h2⟩
    | stopA => exact ⟨h1, h2⟩
    | tickA =>
      exact World.tickW_pres (fun x => x.stepLimit = 40 ∧ x.stepCount ≤ 41)
        World.stepCb_limit (fun x q b c hx => hx) w ⟨h1, h2⟩
  · rw [World.stepCb_halt w hguard (Or.inr ⟨hpos, hlim⟩)]
    exact ⟨rfl, rfl, rfl, rfl⟩
  · rw [World.stepCb_noHalt w hguard hend hlim]
    exact ⟨World.stepExec_stepCount _, (World.stepExec_frame _).2.1⟩

/-- Witness for claim C2: the step call on c2World (41 steps already run
under limit 40) halts without dispatching and fires the done callback
once; the step call on c2Low (0 steps run) dispatches exactly one
operation; and a tick on a fresh limit-40 world keeps the count within
41. -/
theorem claim_C2_witness :
    ((World.stepCb c2World).doneCount = c2World.doneCount +
        (if c2World.doneRegistered then 1 else 0) ∧
      (World.stepCb c2World).stepCount = c2World.stepCount ∧
      (World.stepCb c2World).progAttached = false ∧
      (World.stepCb c2World).stepTimerId = none) ∧
    ((World.stepCb c2Low).stepCount = c2Low.stepCount + 1 ∧
      (World.stepCb c2Low).doneCount = c2Low.doneCount) ∧
    ((applyAct Act.tickA (World.mkWorld loopProg Tape.init 40)).stepLimit = 40 ∧
      (applyAct Act.tickA (World.mkWorld loopProg Tape.init 40)).stepCount ≤ 41) :=
  ⟨claim_C2.2.1 c2World (by decide) (by decide) (by decide),
   claim_C2.2.2 c2Low (by decide) (by decide) (by decide),
   claim_C2.1 Act.tickA (World.mkWorld loopProg Tape.init 40) (by decide) (by decide)⟩

set_option maxRecDepth 30000 in
set_option maxHeartbeats 2000000 in
/-- Counterexample for claim C2 as stated: running the never-halting
loopProg with step limit 40, after 645 loop ticks the simulator has
dispatched 41 operations (the step count reads 41) while the done
callback has not yet fired and the program is still attached; one tick
later the pending step call halts and fires the done callback once.  The
41st operation dispatch therefore occurs before the halt, refuting the
claim that no 41st step ever executes; the halt itself arrives at the
first step call after the count exceeds 40 and fires done exactly once. -/
theorem claim_C2_counterexample :
    c2w100.stepCount = 4 ∧ c2w200.stepCount = 7 ∧ c2w300.stepCount = 11 ∧
    c2w400.stepCount = 14 ∧ c2w500.stepCount = 20 ∧ c2w600.stepCount = 34 ∧
    c2w645.stepCount = 41 ∧ c2w645.doneCount = 0 ∧ c2w645.progAttached = true ∧
    c2w646.stepCount = 41 ∧ c2w646.doneCount = 1 ∧ c2w646.progAttached = false := by
  decide

/-! ## Claim C7 -/

theorem AnimSt.runCB_frame (cb : CB) (s : AnimSt) :
    (AnimSt.runCB cb s).msN = s.msN ∧
    (AnimSt.runCB cb s).msD = s.msD ∧
    (AnimSt.runCB cb s).tooSlowTicks = s.tooSlowTicks ∧
    (AnimSt.runCB cb s).curTick = s.curTick := by
  cases cb <;> simp [AnimSt.runCB, AnimSt.delayMs, AnimSt.delayTicks, AnimSt.cancelA]

theorem AnimSt.drainA_frame :
    ∀ (fuel i n : Nat) (s : AnimSt),
      (AnimSt.drainA fuel i n s).1.msN = s.msN ∧
      (AnimSt.drainA fuel i n s).1.msD = s.msD ∧
      (AnimSt.drainA fuel i n s).1.tooSlowTicks = s.tooSlowTicks ∧
      (AnimSt.drainA fuel i n s).1.curTick = s.curTick := by
  intro fuel
  induction fuel with
  | zero => intro i n s; exact ⟨rfl, rfl, rfl, rfl⟩
  | succ f ih =>
    intro i n s
    rw [AnimSt.drainA]
    cases hq : s.queue.get? i with
    | none => simp
    | some fr =>
      by_cases hd : fr.ticks ≤ s.curTick
      · have h1 := ih (i + 1) (n + 1)
          (AnimSt.runCB fr.call { s with fired := s.fired ++ [fr.eventId] })
        have h2 := AnimSt.runCB_frame fr.call { s with fired := s.fired ++ [fr.eventId] }
        simp only [hd, if_true]
        exact ⟨h1.1.trans h2.1, h1.2.1.trans h2.2.1, h1.2.2.1.trans h2.2.2.1,
          h1.2.2.2.trans h2.2.2.2⟩
      · simp only [hd, if_false]
        exact ⟨trivial, trivial, trivial, trivial⟩

theorem AnimSt.tickAnim_throttle (now : Nat) (s : AnimSt) (h : s.stopped = false) :
    (AnimSt.tickAnim now s).msN = (AnimSt.throttleA now s).msN ∧
    (AnimSt.tickAnim now s).msD = (AnimSt.throttleA now s).msD ∧
    (AnimSt.tickAnim now s).tooSlowTicks = (AnimSt.throttleA now s).tooSlowTicks := by
  unfold AnimSt.tickAnim
  rw [if_neg (by simp [h])]
  by_cases hd : (AnimSt.throttleA now s).queueDirty <;>
    simp only [hd, if_true, if_false] <;>
    exact ⟨(AnimSt.drainA_frame _ 0 0 _).1, (AnimSt.drainA_frame _ 0 0 _).2.1,
      (AnimSt.drainA_frame _ 0 0 _).2.2.1⟩

theorem AnimSt.tickAnim_msPerFrame (now : Nat) (s : AnimSt) (h : s.stopped = false) :
    (AnimSt.tickAnim now s).msPerFrame = (AnimSt.throttleA now s).msPerFrame ∧
    (AnimSt.tickAnim now s).tooSlowTicks = (AnimSt.throttleA now s).tooSlowTicks := by
  have ht := AnimSt.tickAnim_throttle now s h
  refine ⟨?_, ht.2.2⟩
  unfold AnimSt.msPerFrame
  rw [ht.1, ht.2.1]

theorem AnimSt.throttleBump_fire (s1 : AnimSt) (_hn : 0 < s1.msN) (hd : 0 < s1.msD)
    (hth : 20 < s1.tooSlowTicks) :
    (AnimSt.throttleBump s1).msPerFrame =
      min AnimSt.MIN_FPS_MS (s1.msPerFrame * (6 / 5)) ∧
    (AnimSt.throttleBump s1).tooSlowTicks = 0 := by
  have hdq : (0 : ℚ) < (s1.msD : ℚ) := by exact_mod_cast hd
  have hpq : s1.msPerFrame * (6 / 5) = (6 * (s1.msN : ℚ)) / (5 * (s1.msD : ℚ)) := by
    unfold AnimSt.msPerFrame
    field_simp
    ring
  unfold AnimSt.throttleBump
  rw [if_pos hth]
  by_cases hcap : 6 * s1.msN ≤ 250 * s1.msD
  · rw [if_pos hcap]
    refine ⟨?_, rfl⟩
    have hcapq : (6 * (s1.msN : ℚ)) ≤ 250 * (s1.msD : ℚ) := by exact_mod_cast hcap
    have hle : s1.msPerFrame * (6 / 5) ≤ AnimSt.MIN_FPS_MS := by
      rw [hpq]
      unfold AnimSt.MIN_FPS_MS
      rw [div_le_div_iff₀ (by positivity) (by norm_num)]
      linarith
    rw [min_eq_right hle, hpq]
    unfold AnimSt.msPerFrame
    push_cast
    ring
  · rw [if_neg hcap]
    refine ⟨?_, rfl⟩
    have hcapq : 250 * (s1.msD : ℚ) < 6 * (s1.msN : ℚ) := by
      have := Nat.lt_of_not_le hcap
      exact_mod_cast this
    have hge : AnimSt.MIN_FPS_MS ≤ s1.msPerFrame * (6 / 5) := by
      rw [hpq]
      unfold AnimSt.MIN_FPS_MS
      rw [div_le_div_iff₀ (by norm_num) (by positivity)]
      linarith
    rw [min_eq_left hge]
    unfold AnimSt.msPerFrame AnimSt.MIN_FPS_MS
    norm_num

theorem AnimSt.throttleBump_mono (s1 : AnimSt) (hn : 0 < s1.msN) (hd : 0 < s1.msD)
    (h50 : s1.msPerFrame ≤ AnimSt.MIN_FPS_MS) :
    s1.msPerFrame ≤ (AnimSt.throttleBump s1).msPerFrame ∧
    (AnimSt.throttleBump s1).msPerFrame ≤ AnimSt.MIN_FPS_MS := by
  by_cases hth : 20 < s1.tooSlowTicks
  · have hv := AnimSt.throttleBump_fire s1 hn hd hth
    rw [hv.1]
    have h0 : 0 ≤ s1.msPerFrame := by
      unfold AnimSt.msPerFrame
      positivity
    exact ⟨le_min h50 (by nlinarith), min_le_left _ _⟩
  · unfold AnimSt.throttleBump
    rw [if_neg hth]
    exact ⟨le_refl _, h50⟩

theorem AnimSt.throttleA_mono (now : Nat) (s : AnimSt) (hn : 0 < s.msN) (hd : 0 < s.msD)
    (h50 : s.msPerFrame ≤ AnimSt.MIN_FPS_MS) :
    s.msPerFrame ≤ (AnimSt.throttleA now s).msPerFrame ∧
    (AnimSt.throttleA now s).msPerFrame ≤ AnimSt.MIN_FPS_MS := by
  unfold AnimSt.throttleA
  split
  · unfold AnimSt.throttleCore
    split
    · exact AnimSt.throttleBump_mono { s with tooSlowTicks := s.tooSlowTicks + 1 } hn hd h50
    · exact AnimSt.throttleBump_mono { s with tooSlowTicks := s.tooSlowTicks / 2 } hn hd h50
  · exact ⟨le_refl _, h50⟩

/-- Claim C7, corrected.  Part one: across any animation-loop tick, the
frame period never decreases and never passes the 50 ms cap (and reset,
part three, is what restores the fast 1000/60 ms rate).  Part two: on a
tick where the measured interval is an overrun (the cross-multiplied form
of tickLength at least 1.05 times the period) and the overrun counter
passes the threshold of 20, the period becomes its old value times 1.2
clamped to the 50 ms cap and the counter resets to zero; this is a strict
increase exactly when the period was still below the cap, and leaves the
period unchanged at the cap, which refutes the unconditional
strict-increase wording of the claim. -/
theorem claim_C7 :
    (∀ (now : Nat) (s : AnimSt), 0 < s.msN → 0 < s.msD →
      s.msPerFrame ≤ AnimSt.MIN_FPS_MS →
      s.msPerFrame ≤ (AnimSt.tickAnim now s).msPerFrame ∧
      (AnimSt.tickAnim now s).msPerFrame ≤ AnimSt.MIN_FPS_MS) ∧
    (∀ (now : Nat) (s : AnimSt), s.stopped = false →
      30 < s.curTick → s.lastTickStartTime ≠ 0 →
      21 * (s.msN : ℤ) ≤ 20 * (s.msD : ℤ) * ((now : ℤ) - (s.lastTickStartTime : ℤ)) →
      20 < s.tooSlowTicks + 1 → 0 < s.msN → 0 < s.msD →
      (AnimSt.tickAnim now s).msPerFrame =
        min AnimSt.MIN_FPS_MS (s.msPerFrame * (6 / 5)) ∧
      (AnimSt.tickAnim now s).tooSlowTicks = 0 ∧
      (s.msPerFrame < AnimSt.MIN_FPS_MS →
        s.msPerFrame < (AnimSt.tickAnim now s).msPerFrame)) ∧
    (∀ s : AnimSt, (AnimSt.resetA s).msPerFrame = AnimSt.MAX_FPS_MS) := by
  refine ⟨fun now s hn hd h50 => ?_, fun now s hstop hcur hlast hslow hth hn hd => ?_,
    fun s => ?_⟩
  · by_cases hs : s.stopped = true
    · unfold AnimSt.tickAnim
      rw [if_pos hs]
      exact ⟨le_refl _, h50⟩
    · have ht := AnimSt.tickAnim_msPerFrame now s (by simpa using hs)
      rw [ht.1]
      exact AnimSt.throttleA_mono now s hn hd h50
  · have ht := AnimSt.tickAnim_msPerFrame now s hstop
    have hfire : (AnimSt.throttleA now s).msPerFrame =
        min AnimSt.MIN_FPS_MS (s.msPerFrame * (6 / 5)) ∧
        (AnimSt.throttleA now s).tooSlowTicks = 0 := by
      unfold AnimSt.throttleA
      rw [if_pos ⟨hcur, hlast⟩]
      unfold AnimSt.throttleCore
      rw [if_pos hslow]
      exact AnimSt.throttleBump_fire { s with tooSlowTicks := s.tooSlowTicks + 1 } hn hd hth
    refine ⟨ht.1.trans hfire.1, ht.2.trans hfire.2, fun hlt => ?_⟩
    rw [ht.1, hfire.1]
    have h0 : 0 < s.msPerFrame := by
      unfold AnimSt.msPerFrame
      positivity
    exact lt_min hlt (by nlinarith)
  · unfold AnimSt.resetA AnimSt.stopA AnimSt.msPerFrame AnimSt.MAX_FPS_MS
    norm_num

/-- Witness for claim C7: a tick on c7State (counter at the threshold,
period throttled to 20 ms, warm-up over, interval 995 ms) multiplies the
period by 1.2, clamps against the 50 ms cap, resets the counter, and
strictly increases the period since 20 ms is below the cap. -/
theorem claim_C7_witness :
    (AnimSt.tickAnim 1000 c7State).msPerFrame =
      min AnimSt.MIN_FPS_MS (c7State.msPerFrame * (6 / 5)) ∧
    (AnimSt.tickAnim 1000 c7State).tooSlowTicks = 0 ∧
    (c7State.msPerFrame < AnimSt.MIN_FPS_MS →
      c7State.msPerFrame < (AnimSt.tickAnim 1000 c7State).msPerFrame) :=
  claim_C7.2.1 1000 c7State (by decide) (by decide) (by decide) (by decide) (by decide)
    (by decide) (by decide)

set_option maxRecDepth 30000 in
set_option maxHeartbeats 2000000 in
/-- Counterexample for claim C7 as stated: under two hundred uniformly
slow ticks (100 ms apart against a period of at most 50 ms), the seventh
throttle event has already clamped the frame period to exactly 50 ms by
tick 178.  At tick 198 the overrun counter is back at the threshold of
20, and the tick after that crosses the threshold: the counter resets to
zero, proving the throttle branch fired, yet the period stays at 50 ms —
the tick period did not strictly increase when the overrun counter
exceeded its threshold. -/
theorem claim_C7_counterexample :
    c7s178.msPerFrame = 50 ∧
    c7s198.msPerFrame = 50 ∧ c7s198.tooSlowTicks = 20 ∧
    c7s199.msPerFrame = 50 ∧ c7s199.tooSlowTicks = 0 := by
  have h : c7s100.curTick = 100 ∧
      (c7s178.msN = 1000 ∧ c7s178.msD = 20) ∧
      (c7s198.msN = 1000 ∧ c7s198.msD = 20 ∧ c7s198.tooSlowTicks = 20) ∧
      (c7s199.msN = 1000 ∧ c7s199.msD = 20 ∧ c7s199.tooSlowTicks = 0) := by
    decide
  obtain ⟨-, ⟨a1, a2⟩, ⟨b1, b2, b3⟩, ⟨c1, c2, c3⟩⟩ := h
  refine ⟨?_, ?_, b3, ?_, c3⟩ <;>
    unfold AnimSt.msPerFrame <;>
    simp [a1, a2, b1, b2, c1, c2] <;>
    norm_num

/-! ## Claim C1 -/

theorem speedsOk_config (sp : SpeedSetting) : speedsOk (SPEED_CONFIG sp) := by
  cases sp <;> exact ⟨by decide, by decide, by decide⟩

theorem speedsOk_speedUp (w : World) (h : speedsOk w.speeds) :
    speedsOk (World.speedUpBoringLoops w).speeds := by
  unfold World.speedUpBoringLoops
  dsimp only
  split
  · exact speedsOk_config .ludicrous
  · split
    · exact speedsOk_config .fast
    · exact h

theorem stepDuration_ge (op : String) (sp : Speeds) (h : speedsOk sp) :
    100 ≤ stepDuration op sp := by
  unfold stepDuration
  split
  · exact h.2.1
  · split
    · exact h.2.2
    · exact h.1

theorem msToTicks_pos (d : Nat) (h : 100 ≤ d) : 0 < msToTicks d := by
  unfold msToTicks
  have : (1 : Nat) * 50 ≤ 3 * d + 49 := by omega
  exact Nat.lt_of_lt_of_le Nat.zero_lt_one ((Nat.le_div_iff_mul_le (by norm_num)).mpr this)

theorem World.stepExec_sched (w : World) (h : speedsOk w.speeds) :
    ∃ k, 0 < k ∧
      (World.stepExec w).queue =
        w.queue ++ [{ ticks := w.curTick + k, eventId := w.nextEventId }] ∧
      (World.stepExec w).stepTimerId = some w.nextEventId ∧
      (World.stepExec w).paused = w.paused ∧
      (World.stepExec w).curTick = w.curTick ∧
      speedsOk (World.stepExec w).speeds := by
  unfold World.stepExec
  by_cases hl : 0 < w.stepLimit
  · simp only [hl, if_true]
    refine ⟨msToTicks (stepDuration (stripStar w.prog.getCurOp)
        (World.speedUpBoringLoops w).speeds), ?_, ?_, ?_, ?_, ?_, ?_⟩
    · exact msToTicks_pos _ (stepDuration_ge _ _ (speedsOk_speedUp w h))
    · rfl
    · rfl
    · rfl
    · rfl
    · exact speedsOk_speedUp w h
  · simp only [hl, if_false]
    refine ⟨msToTicks (stepDuration (stripStar w.prog.getCurOp) w.speeds),
      ?_, ?_, ?_, ?_, ?_, ?_⟩
    · exact msToTicks_pos _ (stepDuration_ge _ _ h)
    · rfl
    · rfl
    · rfl
    · rfl
    · exact h

theorem World.stepCb_cases (w : World) (h : speedsOk w.speeds) :
    World.stepCb w = w ∨
    ((World.stepCb w).queue = w.queue ∧ (World.stepCb w).stepTimerId = none ∧
      (World.stepCb w).paused = w.paused ∧ (World.stepCb w).curTick = w.curTick ∧
      (World.stepCb w).speeds = w.speeds) ∨
    (∃ k, 0 < k ∧
      (World.stepCb w).queue =
        w.queue ++ [{ ticks := w.curTick + k, eventId := w.nextEventId }] ∧
      (World.stepCb w).stepTimerId = some w.nextEventId ∧
      (World.stepCb w).paused = w.paused ∧
      (World.stepCb w).curTick = w.curTick ∧
      speedsOk (World.stepCb w).speeds) := by
  unfold World.stepCb
  split
  · exact Or.inl rfl
  · unfold World.stepAdvance
    split
    · exact Or.inr (Or.inl ⟨rfl, rfl, rfl, rfl, rfl⟩)
    · exact Or.inr (Or.inr
        (World.stepExec_sched { w with stepTimerId := none, prog := w.prog.goToNextPos } h))

theorem stepInv_run (sp : SpeedSetting) (d : Bool) (w : World) (h : stepInv w)
    (hp : w.paused = false) : stepInv (World.runSim sp d w) := by
  obtain ⟨h1, h2, h3⟩ := h
  unfold World.runSim
  by_cases hr : w.stepTimerId ≠ none
  · rw [if_pos hr]
    exact ⟨h1, h2, h3⟩
  · rw [if_neg hr]
    have hnone : w.stepTimerId = none := by
      by_contra hc
      exact hr hc
    have hqe : w.queue = [] := by
      unfold queueInv at h1
      cases hq : w.queue with
      | nil => rfl
      | cons e rest =>
        cases rest with
        | nil =>
          rw [hq] at h1
          rw [hnone] at h1
          cases h1
        | cons e2 r2 =>
          rw [hq] at h1
          cases h1
    refine ⟨?_, ?_, speedsOk_config sp⟩
    · unfold queueInv World.schedStep
      dsimp only
      rw [hqe]
      rfl
    · intro hpc
      have hpc2 : w.paused = true := hpc
      rw [hp] at hpc2
      cases hpc2

theorem stepInv_pause (w : World) (h : stepInv w) : stepInv (World.pauseSim w) := by
  obtain ⟨h1, h2, h3⟩ := h
  have hqe : (World.pauseSim w).queue = [] := by
    unfold World.pauseSim
    unfold queueInv at h1
    cases hq : w.queue with
    | nil =>
      cases hi : w.stepTimerId <;> simp [hi, hq, cancelQW]
    | cons e rest =>
      cases rest with
      | nil =>
        rw [hq] at h1
        simp [h1, hq, cancelQW]
      | cons e2 r2 =>
        rw [hq] at h1
        cases h1
  refine ⟨?_, fun _ => hqe, h3⟩
  unfold queueInv
  rw [hqe]
  trivial

theorem stepInv_resume (w : World) (h : stepInv w) : stepInv (World.resumeSim w) := by
  obtain ⟨h1, h2, h3⟩ := h
  unfold World.resumeSim
  by_cases hp : w.paused
  · rw [if_pos hp]
    have hqe : w.queue = [] := h2 hp
    refine ⟨?_, ?_, h3⟩
    · unfold queueInv World.schedStep
      dsimp only
      rw [hqe]
      rfl
    · intro hpc
      cases hpc
  · rw [if_neg hp]
    exact ⟨h1, fun hpc => absurd hpc (by simp [Bool.not_eq_true] at hp; simp [hp]), h3⟩

theorem stepInv_stop (w : World) (h : stepInv w) : stepInv (World.stopSim w) := by
  obtain ⟨h1, h2, h3⟩ := h
  have hqe : (World.stopSim w).queue = [] := by
    unfold World.stopSim
    unfold queueInv at h1
    cases hq : w.queue with
    | nil =>
      cases hi : w.stepTimerId <;> simp [hi, hq, cancelQW]
    | cons e rest =>
      cases rest with
      | nil =>
        rw [hq] at h1
        simp [h1, hq, cancelQW]
      | cons e2 r2 =>
        rw [hq] at h1
        cases h1
  refine ⟨?_, fun _ => hqe, h3⟩
  unfold queueInv
  rw [hqe]
  trivial

theorem stepInv_tick_core (v : World) (e : StepEv) (hq : v.queue = [e])
    (hid : v.stepTimerId = some e.eventId) (hsp : speedsOk v.speeds)
    (hpf : v.paused = false) :
    stepInv
      { (World.drainW (v.queue.length + 1) 0 0 v).1 with
        queue := (World.drainW (v.queue.length + 1) 0 0 v).1.queue.drop
          (World.drainW (v.queue.length + 1) 0 0 v).2
        curTick := (World.drainW (v.queue.length + 1) 0 0 v).1.curTick + 1 } := by
  rw [hq]
  show stepInv
    { (World.drainW 2 0 0 v).1 with
      queue := (World.drainW 2 0 0 v).1.queue.drop (World.drainW 2 0 0 v).2
      curTick := (World.drainW 2 0 0 v).1.curTick + 1 }
  have hget0 : v.queue.get? 0 = some e := by rw [hq]; rfl
  by_cases hdue : e.ticks ≤ v.curTick
  · have hstep1 : World.drainW 2 0 0 v = World.drainW 1 1 1 (World.stepCb v) := by
      rw [World.drainW, hget0]
      simp [hdue]
    rcases World.stepCb_cases v hsp with hcb | hcb | hcb
    · have hstep2 : World.drainW 1 1 1 (World.stepCb v) = (v, 1) := by
        rw [hcb, World.drainW]
        have : v.queue.get? 1 = none := by rw [hq]; rfl
        rw [this]
      rw [hstep1, hstep2]
      refine ⟨?_, ?_, hsp⟩
      · unfold queueInv
        dsimp only
        rw [hq]
        trivial
      · intro hpc
        dsimp only at hpc ⊢
        rw [hq]
        rfl
    · obtain ⟨hcq, hci, hcp, hct, hcs⟩ := hcb
      have hstep2 : World.drainW 1 1 1 (World.stepCb v) = (World.stepCb v, 1) := by
        rw [World.drainW]
        have : (World.stepCb v).queue.get? 1 = none := by rw [hcq, hq]; rfl
        rw [this]
      rw [hstep1, hstep2]
      refine ⟨?_, ?_, by rw [hcs]; exact hsp⟩
      · unfold queueInv
        dsimp only
        rw [hcq, hq]
        trivial
      · intro hpc
        dsimp only at hpc ⊢
        rw [hcq, hq]
        rfl
    · obtain ⟨k, hk, hcq, hci, hcp, hct, hcs⟩ := hcb
      have hget1 : (World.stepCb v).queue.get? 1 =
          some { ticks := v.curTick + k, eventId := v.nextEventId } := by
        rw [hcq, hq]
        rfl
      have hnotdue : ¬({ ticks := v.curTick + k, eventId := v.nextEventId } : StepEv).ticks ≤
          (World.stepCb v).curTick := by
        rw [hct]
        dsimp only
        omega
      have hstep2 : World.drainW 1 1 1 (World.stepCb v) = (World.stepCb v, 1) := by
        rw [World.drainW, hget1]
        simp [hnotdue]
      rw [hstep1, hstep2]
      refine ⟨?_, ?_, hcs⟩
      · unfold queueInv
        dsimp only
        rw [hcq, hq]
        dsimp only [List.cons_append, List.nil_append, List.drop]
        exact hci
      · intro hpc
        dsimp only at hpc
        rw [hcp, hpf] at hpc
        cases hpc
  · have hstep1 : World.drainW 2 0 0 v = (v, 0) := by
      rw [World.drainW, hget0]
      simp [hdue]
    rw [hstep1]
    refine ⟨?_, ?_, hsp⟩
    · unfold queueInv
      dsimp only
      rw [hq]
      dsimp only [List.drop]
      exact hid
    · intro hpc
      dsimp only at hpc
      rw [hpf] at hpc
      cases hpc

theorem stepInv_tick_nil_core (v : World) (hq : v.queue = []) (hsp : speedsOk v.speeds) :
    stepInv
      { (World.drainW (v.queue.length + 1) 0 0 v).1 with
        queue := (World.drainW (v.queue.length + 1) 0 0 v).1.queue.drop
          (World.drainW (v.queue.length + 1) 0 0 v).2
        curTick := (World.drainW (v.queue.length + 1) 0 0 v).1.curTick + 1 } := by
  rw [hq]
  show stepInv
    { (World.drainW 1 0 0 v).1 with
      queue := (World.drainW 1 0 0 v).1.queue.drop (World.drainW 1 0 0 v).2
      curTick := (World.drainW 1 0 0 v).1.curTick + 1 }
  have hdrain : World.drainW 1 0 0 v = (v, 0) := by
    rw [World.drainW]
    have hg : v.queue.get? 0 = none := by rw [hq]; rfl
    rw [hg]
  rw [hdrain]
  refine ⟨?_, ?_, hsp⟩
  · unfold queueInv
    dsimp only
    rw [hq]
    trivial
  · intro hpc
    dsimp only
    rw [hq]
    rfl

theorem stepInv_tick (w : World) (h : stepInv w) : stepInv (World.tickW w) := by
  obtain ⟨h1, h2, h3⟩ := h
  cases hq : w.queue with
  | nil =>
    unfold World.tickW
    by_cases hd : w.queueDirty
    · simp only [hd, if_true]
      exact stepInv_tick_nil_core { w with queue := sortSE w.queue, queueDirty := false }
        (by rw [hq]; rfl) h3
    · simp only [hd, if_false]
      exact stepInv_tick_nil_core w hq h3
  | cons e rest =>
    cases rest with
    | cons e2 r2 =>
      unfold queueInv at h1
      rw [hq] at h1
      cases h1
    | nil =>
      have hid : w.stepTimerId = some e.eventId := by
        unfold queueInv at h1
        rw [hq] at h1
        exact h1
      have hpf : w.paused = false := by
        cases hp : w.paused
        · rfl
        · rw [h2 hp] at hq
          cases hq
      unfold World.tickW
      by_cases hd : w.queueDirty
      · simp only [hd, if_true]
        exact stepInv_tick_core { w with queue := sortSE w.queue, queueDirty := false } e
          (by rw [hq]; rfl) hid h3 hpf
      · simp only [hd, if_false]
        exact stepInv_tick_core w e hq hid h3 hpf

/-- Claim C1, corrected: for every sequence of run, pause, resumeIfPaused
and stop calls, driven by animation-loop ticks, in which run is never
called while the simulator is paused, at most one step event is pending
in the scheduler queue at every observed instant.  (The restriction is
forced by the counterexample: run does not clear the paused flag, so a
run issued while paused plants one step event and leaves the flag set,
and the following resumeIfPaused plants a second one.) -/
theorem claim_C1 (p : Program) (t : Tape) (limit : Nat) (acts : List Act)
    (hgood : goodActs (World.mkWorld p t limit) acts = true) :
    (applyActs acts (World.mkWorld p t limit)).queue.length ≤ 1 := by
  have main : ∀ (acts2 : List Act) (w : World), stepInv w → goodActs w acts2 = true →
      stepInv (applyActs acts2 w) := by
    intro acts2
    induction acts2 with
    | nil => intro w h _; exact h
    | cons a rest ih =>
      intro w h hg
      cases a with
      | runA sp d =>
        have hb : ((!w.paused) && goodActs (applyAct (.runA sp d) w) rest) = true := hg
        rw [Bool.and_eq_true] at hb
        have hp : w.paused = false := by
          cases hpp : w.paused
          · rfl
          · have hb1 := hb.1
            rw [hpp] at hb1
            exact absurd hb1 (by decide)
        exact ih _ (stepInv_run sp d w h hp) hb.2
      | pauseA =>
        have hb : (true && goodActs (applyAct .pauseA w) rest) = true := hg
        rw [Bool.true_and] at hb
        exact ih _ (stepInv_pause w h) hb
      | resumeA =>
        have hb : (true && goodActs (applyAct .resumeA w) rest) = true := hg
        rw [Bool.true_and] at hb
        exact ih _ (stepInv_resume w h) hb
      | stopA =>
        have hb : (true && goodActs (applyAct .stopA w) rest) = true := hg
        rw [Bool.true_and] at hb
        exact ih _ (stepInv_stop w h) hb
      | tickA =>
        have hb : (true && goodActs (applyAct .tickA w) rest) = true := hg
        rw [Bool.true_and] at hb
        exact ih _ (stepInv_tick w h) hb
  have base : stepInv (World.mkWorld p t limit) :=
    ⟨trivial, fun _ => rfl, speedsOk_config .normal⟩
  have hinv := main acts (World.mkWorld p t limit) base hgood
  obtain ⟨h1, -, -⟩ := hinv
  unfold queueInv at h1
  cases hql : (applyActs acts (World.mkWorld p t limit)).queue with
  | nil => simp [hql]
  | cons e rest =>
    cases rest with
    | nil => simp [hql]
    | cons e2 r2 =>
      rw [hql] at h1
      cases h1

/-- Witness for claim C1: a run, two ticks, a pause and a resume (run
never issued while paused) leave at most one pending step event. -/
theorem claim_C1_witness :
    (applyActs [Act.runA .normal false, Act.tickA, Act.tickA, Act.pauseA, Act.resumeA]
        (World.mkWorld loopProg Tape.init 40)).queue.length ≤ 1 :=
  claim_C1 loopProg Tape.init 40
    [Act.runA .normal false, Act.tickA, Act.tickA, Act.pauseA, Act.resumeA] (by decide)

/-- Counterexample for claim C1 as stated: the call sequence run, pause,
run, resumeIfPaused leaves two step events pending in the scheduler
queue.  The second run proceeds because pause reset the step timer, but
run does not clear the paused flag, so the resume schedules a second
step event on top of the one the second run planted. -/
theorem claim_C1_counterexample :
    (applyActs [Act.runA .normal false, Act.pauseA, Act.runA .normal false, Act.resumeA]
        (World.mkWorld loopProg Tape.init 100)).queue.length = 2 := by
  decide

/-! ## Claim C4 -/

theorem aeLE_ticks_le (a b : AEvent) (h : aeLE a b = true) : a.ticks ≤ b.ticks := by
  simp [aeLE] at h
  omega

theorem aeLE_total (a b : AEvent) : aeLE a b = true ∨ aeLE b a = true := by
  simp [aeLE]
  omega

theorem mem_insertAE (e a : AEvent) (l : List AEvent) :
    a ∈ insertAE e l ↔ a = e ∨ a ∈ l := by
  induction l with
  | nil => simp [insertAE]
  | cons x xs ih =>
    rw [insertAE]
    split
    · simp
    · simp [ih]
      tauto

theorem mem_sortAE (a : AEvent) (l : List AEvent) : a ∈ sortAE l ↔ a ∈ l := by
  induction l with
  | nil => simp [sortAE]
  | cons x xs ih =>
    rw [sortAE, mem_insertAE]
    simp [ih]

theorem aeLE_trans (a b c : AEvent) (hab : aeLE a b = true) (hbc : aeLE b c = true) :
    aeLE a c = true := by
  simp [aeLE] at *
  omega

theorem pairwise_insertAE (e : AEvent) (l : List AEvent)
    (h : l.Pairwise (fun a b => aeLE a b = true)) :
    (insertAE e l).Pairwise (fun a b => aeLE a b = true) := by
  induction l with
  | nil => simp [insertAE]
  | cons x xs ih =>
    rw [insertAE]
    split
    · rename_i hle
      refine List.Pairwise.cons ?_ h
      intro b hb
      rcases List.mem_cons.mp hb with rfl | hb2
      · exact hle
      · exact aeLE_trans e x b hle ((List.pairwise_cons.mp h).1 b hb2)
    · rename_i hnle
      have hxe : aeLE x e = true := by
        rcases aeLE_total e x with h1 | h1
        · exact absurd h1 hnle
        · exact h1
      refine List.Pairwise.cons ?_ (ih (List.pairwise_cons.mp h).2)
      intro b hb
      rcases (mem_insertAE e b xs).mp hb with rfl | hb2
      · exact hxe
      · exact (List.pairwise_cons.mp h).1 b hb2

theorem pairwise_sortAE (l : List AEvent) :
    (sortAE l).Pairwise (fun a b => aeLE a b = true) := by
  induction l with
  | nil => exact List.Pairwise.nil
  | cons x xs ih => exact pairwise_insertAE x (sortAE xs) ih

theorem AnimSt.runCB_fired (cb : CB) (s : AnimSt) :
    (AnimSt.runCB cb s).fired = s.fired := by
  cases cb <;> rfl

theorem AnimSt.runCB_queue_cancelFree (cb : CB) (hcf : cb.cancelFree = true) (s : AnimSt) :
    ∃ tail, (AnimSt.runCB cb s).queue = s.queue ++ tail ∧
      ∀ e ∈ tail, e.call.cancelFree = true := by
  cases cb with
  | nop => exact ⟨[], by simp [AnimSt.runCB], by simp⟩
  | sched d k =>
    refine ⟨[{ ticks := s.curTick + s.getNumTicks d, eventId := s.eventId, call := k }],
      rfl, ?_⟩
    intro e he
    rw [List.mem_singleton] at he
    rw [he]
    exact hcf
  | canc id => exact absurd hcf (by simp [CB.cancelFree])

theorem AnimSt.drainA_fired_mono :
    ∀ (fuel i n : Nat) (s : AnimSt) (x : Nat), x ∈ s.fired →
      x ∈ (AnimSt.drainA fuel i n s).1.fired := by
  intro fuel
  induction fuel with
  | zero => intro i n s x hx; exact hx
  | succ f ih =>
    intro i n s x hx
    rw [AnimSt.drainA]
    cases hq : s.queue.get? i with
    | none => exact hx
    | some fr =>
      by_cases hdue : fr.ticks ≤ s.curTick
      · simp only [hdue, if_true]
        apply ih
        rw [AnimSt.runCB_fired]
        exact List.mem_append_left _ hx
      · simp only [hdue, if_false]
        exact hx

theorem AnimSt.drainA_hits :
    ∀ (k fuel i n : Nat) (s : AnimSt) (fr : AEvent),
      k < fuel →
      s.queue.get? (i + k) = some fr →
      (∀ (j : Nat) (fr2 : AEvent), j ≤ i + k → s.queue.get? j = some fr2 →
        fr2.ticks ≤ s.curTick) →
      (∀ e ∈ s.queue, e.call.cancelFree = true) →
      fr.eventId ∈ (AnimSt.drainA fuel i n s).1.fired := by
  intro k
  induction k with
  | zero =>
    intro fuel i n s fr hfuel hget hdue hcf
    cases fuel with
    | zero => omega
    | succ f =>
      rw [Nat.add_zero] at hget
      rw [AnimSt.drainA, hget]
      have hd : fr.ticks ≤ s.curTick := hdue i fr (by omega) hget
      simp only [hd, if_true]
      apply AnimSt.drainA_fired_mono
      rw [AnimSt.runCB_fired]
      exact List.mem_append_right _ (List.mem_singleton.mpr rfl)
  | succ k2 ih =>
    intro fuel i n s fr hfuel hget hdue hcf
    cases fuel with
    | zero => omega
    | succ f =>
      have hlen : i + (k2 + 1) < s.queue.length := (List.get?_eq_some.mp hget).1
      have hilen : i < s.queue.length := by omega
      obtain ⟨e0, hge0⟩ : ∃ e0, s.queue.get? i = some e0 := by
        rw [List.get?_eq_get hilen]
        exact ⟨_, rfl⟩
      rw [AnimSt.drainA, hge0]
      have hd0 : e0.ticks ≤ s.curTick := hdue i e0 (by omega) hge0
      simp only [hd0, if_true]
      have hcf0 : e0.call.cancelFree = true := hcf e0 (List.get?_mem hge0)
      obtain ⟨tail, hq2, hcft⟩ := AnimSt.runCB_queue_cancelFree e0.call hcf0
        { s with fired := s.fired ++ [e0.eventId] }
      have hct2 : (AnimSt.runCB e0.call { s with fired := s.fired ++ [e0.eventId] }).curTick
          = s.curTick :=
        (AnimSt.runCB_frame e0.call _).2.2.2
      have hget2 : (AnimSt.runCB e0.call
          { s with fired := s.fired ++ [e0.eventId] }).queue.get? (i + 1 + k2) = some fr := by
        rw [hq2]
        show (s.queue ++ tail).get? (i + 1 + k2) = some fr
        rw [List.get?_eq_getElem?, List.getElem?_append_left (by omega),
          ← List.get?_eq_getElem?]
        rw [show i + 1 + k2 = i + (k2 + 1) from by omega]
        exact hget
      have hdue2 : ∀ (j : Nat) (fr2 : AEvent), j ≤ i + 1 + k2 →
          (AnimSt.runCB e0.call
            { s with fired := s.fired ++ [e0.eventId] }).queue.get? j = some fr2 →
          fr2.ticks ≤ (AnimSt.runCB e0.call
            { s with fired := s.fired ++ [e0.eventId] }).curTick := by
        intro j fr2 hj hg
        rw [hq2] at hg
        have hg2 : (s.queue ++ tail).get? j = some fr2 := hg
        rw [List.get?_eq_getElem?, List.getElem?_append_left (by omega),
          ← List.get?_eq_getElem?] at hg2
        rw [hct2]
        exact hdue j fr2 (by omega) hg2
      have hcf2 : ∀ e ∈ (AnimSt.runCB e0.call
          { s with fired := s.fired ++ [e0.eventId] }).queue, e.call.cancelFree = true := by
        intro e he
        rw [hq2] at he
        rcases List.mem_append.mp he with h2 | h2
        · exact hcf e h2
        · exact hcft e h2
      exact ih f (i + 1) (n + 1) _ fr (by omega) hget2 hdue2 hcf2

theorem AnimSt.throttleA_frame (now : Nat) (s : AnimSt) :
    (AnimSt.throttleA now s).queue = s.queue ∧
    (AnimSt.throttleA now s).queueDirty = s.queueDirty ∧
    (AnimSt.throttleA now s).curTick = s.curTick ∧
    (AnimSt.throttleA now s).fired = s.fired := by
  unfold AnimSt.throttleA AnimSt.throttleCore AnimSt.throttleBump
  refine ⟨?_, ?_, ?_, ?_⟩ <;> split_ifs <;> rfl

theorem AnimSt.getNumTicks_zero (s : AnimSt) : s.getNumTicks 0 = 0 := by
  unfold AnimSt.getNumTicks
  cases hn : s.msN with
  | zero => simp
  | succ m =>
    rw [Nat.zero_mul, Nat.zero_add]
    exact Nat.div_eq_of_lt (by omega)

theorem AnimSt.tickAnim_fired_drain (now : Nat) (s : AnimSt) (h : s.stopped = false)
    (hd : s.queueDirty = true) :
    (AnimSt.tickAnim now s).fired =
      (AnimSt.drainA
        (AnimSt.fuelOf ({ AnimSt.throttleA now s with
            queue := sortAE (AnimSt.throttleA now s).queue, queueDirty := false } : AnimSt).queue)
        0 0
        { AnimSt.throttleA now s with
          queue := sortAE (AnimSt.throttleA now s).queue, queueDirty := false }).1.fired := by
  unfold AnimSt.tickAnim
  rw [if_neg (by simp [h])]
  have hsd : (AnimSt.throttleA now s).queueDirty = true := by
    rw [(AnimSt.throttleA_frame now s).2.1, hd]
  simp only [hsd, if_true]

/-- Claim C4, corrected: when a callback is scheduled with duration 0 ms
while the animation loop is between ticks (and neither it nor any queued
callback cancels events), its callback is invoked during the very next
animation-loop tick.  The same-drain half of the original claim is
refuted separately: the drain iterates the live queue, not a snapshot,
so a 0-duration callback scheduled from inside a callback executing in
the current drain is appended with the still-current tick as its due
tick and can fire within that same drain. -/
theorem claim_C4 (s : AnimSt) (cb : CB) (now : Nat)
    (hstop : s.stopped = false)
    (hq : ∀ e ∈ s.queue, e.call.cancelFree = true)
    (hcb : cb.cancelFree = true) :
    (AnimSt.delayMs cb 0 s).1 ∈ (AnimSt.tickAnim now (AnimSt.delayMs cb 0 s).2).fired := by
  have hzero : s.getNumTicks 0 = 0 := AnimSt.getNumTicks_zero s
  set ev : AEvent := { ticks := s.curTick + s.getNumTicks 0, eventId := s.eventId, call := cb }
    with hev
  have hevticks : ev.ticks = s.curTick := by rw [hev]; simp [hzero]
  set s1 : AnimSt := (AnimSt.delayMs cb 0 s).2 with hs1
  have hq1 : s1.queue = s.queue ++ [ev] := rfl
  have hframe := AnimSt.throttleA_frame now s1
  have hfired := AnimSt.tickAnim_fired_drain now s1 hstop rfl
  rw [hfired]
  set sb : AnimSt := { AnimSt.throttleA now s1 with
    queue := sortAE (AnimSt.throttleA now s1).queue, queueDirty := false } with hsb
  have hsbq : sb.queue = sortAE (s.queue ++ [ev]) := by
    rw [hsb]
    show sortAE (AnimSt.throttleA now s1).queue = _
    rw [hframe.1, hq1]
  have hsbt : sb.curTick = s.curTick := by
    rw [hsb]
    show (AnimSt.throttleA now s1).curTick = s.curTick
    rw [hframe.2.2.1]
    rfl
  have hmem : ev ∈ sb.queue := by
    rw [hsbq, mem_sortAE]
    exact List.mem_append_right _ (List.mem_singleton.mpr rfl)
  obtain ⟨⟨idx, hidxlt⟩, hidx⟩ := List.mem_iff_get.mp hmem
  have hget : sb.queue.get? idx = some ev := by
    rw [List.get?_eq_get hidxlt, hidx]
  have hsorted := pairwise_sortAE (s.queue ++ [ev])
  have hdue : ∀ (j : Nat) (fr2 : AEvent), j ≤ 0 + idx → sb.queue.get? j = some fr2 →
      fr2.ticks ≤ sb.curTick := by
    intro j fr2 hj hg
    have hjlen : j < sb.queue.length := (List.get?_eq_some.mp hg).1
    rw [hsbt]
    by_cases hji : j = idx
    · rw [hji] at hg
      rw [hget] at hg
      cases hg
      rw [hevticks]
    · have hjlt : j < idx := by omega
      have hpw := List.pairwise_iff_get.mp (by rw [hsbq]; exact hsorted)
        ⟨j, hjlen⟩ ⟨idx, hidxlt⟩ hjlt
      have hje : sb.queue.get ⟨j, hjlen⟩ = fr2 := by
        have := List.get?_eq_get hjlen
        rw [this] at hg
        exact Option.some.inj hg
      rw [hje, hidx] at hpw
      have := aeLE_ticks_le fr2 ev hpw
      omega
  have hcfs : ∀ e ∈ sb.queue, e.call.cancelFree = true := by
    intro e he
    rw [hsbq, mem_sortAE] at he
    rcases List.mem_append.mp he with h2 | h2
    · exact hq e h2
    · rw [List.mem_singleton.mp h2]
      exact hcb
  have hfuel : idx < AnimSt.fuelOf sb.queue := by
    unfold AnimSt.fuelOf
    have : idx < sb.queue.length := hidxlt
    omega
  have hmain := AnimSt.drainA_hits idx (AnimSt.fuelOf sb.queue) 0 0 sb ev hfuel
    (by rw [Nat.zero_add]; exact hget) hdue hcfs
  exact hmain

/-- Witness for claim C4: on a started scheduler holding one cancel-free
pending event, a no-op callback scheduled with duration 0 between ticks
(event id 2) fires during the very next tick. -/
theorem claim_C4_witness :
    (AnimSt.delayMs CB.nop 0 (AnimSt.delayTicks CB.nop 3 (AnimSt.startA AnimSt.initial)).2).1 ∈
      (AnimSt.tickAnim 5
        (AnimSt.delayMs CB.nop 0
          (AnimSt.delayTicks CB.nop 3 (AnimSt.startA AnimSt.initial)).2).2).fired :=
  claim_C4 (AnimSt.delayTicks CB.nop 3 (AnimSt.startA AnimSt.initial)).2 CB.nop 5
    (by decide) (by decide) (by decide)

/-- Counterexample for claim C4 as stated: in the c4State scenario, event
1 (duration 0) fires at the first tick, and its callback schedules a
callback with duration 0, which becomes event 2 due at the still-current
tick; the live-queue drain reaches it and invokes it during the same
drain.  After one single tick both ids 1 and 2 have fired: the callback
scheduled with duration 0 from inside the drain was invoked in the same
per-tick drain in which it was scheduled, not on the next tick advance. -/
theorem claim_C4_counterexample :
    (AnimSt.tickAnim 7 c4State).fired = [1, 2] ∧
    (AnimSt.tickAnim 7 c4State).curTick = 1 ∧
    (AnimSt.tickAnim 9 (AnimSt.tickAnim 7 c4State)).fired = [1, 2] := by
  decide

end TuringDoodle
